import Mathlib

/-!
kaa: binding command-line arguments and flags to struct fields

A shallow embedding of `context.go` and `kaa.go` (package `kaa`), together with the
parts of the Go standard library (`strconv`, `strings`, `reflect`) and of the flag
library (`pflag`, reached through `cobra.Command.Flags()`) that the code calls.

Conventions of the embedding

* `int` and `uint` are 64 bits wide; integers are `Int` with explicit wrap-around.
* A Go string is a Lean `String` (text; invalid UTF-8 is outside the model).
* Floating-point values are carried as their bit pattern; the code only copies them.
* `reflect.Value` is `Option Value`: `none` is the invalid (zero) `reflect.Value`.
* A call that panics in Go yields the outcome `Outcome.panic`.
* A runner passed to `Handle` is a function of the context and of a program state.
-/

namespace Kaa

/-! ## strings -/

/-- The table of `unicode.CaseRanges` for the lower case, outside ASCII (Unicode 14.0
and 15.0, the simple case mapping): each entry is `(lo, hi, stride, lower)`; the runes
`lo, lo + stride, ..., hi` have the lower case `lower + (rune - lo)`. -/
def caseRanges : List (Nat × Nat × Nat × Nat) :=
  [(0xC0, 0xD6, 1, 0xE0), (0xD8, 0xDE, 1, 0xF8), (0x100, 0x12E, 2, 0x101),
   (0x130, 0x130, 1, 0x69), (0x132, 0x136, 2, 0x133), (0x139, 0x147, 2, 0x13A),
   (0x14A, 0x176, 2, 0x14B), (0x178, 0x178, 1, 0xFF), (0x179, 0x17D, 2, 0x17A),
   (0x181, 0x181, 1, 0x253), (0x182, 0x184, 2, 0x183), (0x186, 0x186, 1, 0x254),
   (0x187, 0x187, 1, 0x188), (0x189, 0x18A, 1, 0x256), (0x18B, 0x18B, 1, 0x18C),
   (0x18E, 0x18E, 1, 0x1DD), (0x18F, 0x18F, 1, 0x259), (0x190, 0x190, 1, 0x25B),
   (0x191, 0x191, 1, 0x192), (0x193, 0x193, 1, 0x260), (0x194, 0x194, 1, 0x263),
   (0x196, 0x196, 1, 0x269), (0x197, 0x197, 1, 0x268), (0x198, 0x198, 1, 0x199),
   (0x19C, 0x19C, 1, 0x26F), (0x19D, 0x19D, 1, 0x272), (0x19F, 0x19F, 1, 0x275),
   (0x1A0, 0x1A4, 2, 0x1A1), (0x1A6, 0x1A6, 1, 0x280), (0x1A7, 0x1A7, 1, 0x1A8),
   (0x1A9, 0x1A9, 1, 0x283), (0x1AC, 0x1AC, 1, 0x1AD), (0x1AE, 0x1AE, 1, 0x288),
   (0x1AF, 0x1AF, 1, 0x1B0), (0x1B1, 0x1B2, 1, 0x28A), (0x1B3, 0x1B5, 2, 0x1B4),
   (0x1B7, 0x1B7, 1, 0x292), (0x1B8, 0x1B8, 1, 0x1B9), (0x1BC, 0x1BC, 1, 0x1BD),
   (0x1C4, 0x1C4, 1, 0x1C6), (0x1C5, 0x1C5, 1, 0x1C6), (0x1C7, 0x1C7, 1, 0x1C9),
   (0x1C8, 0x1C8, 1, 0x1C9), (0x1CA, 0x1CA, 1, 0x1CC), (0x1CB, 0x1DB, 2, 0x1CC),
   (0x1DE, 0x1EE, 2, 0x1DF), (0x1F1, 0x1F1, 1, 0x1F3), (0x1F2, 0x1F4, 2, 0x1F3),
   (0x1F6, 0x1F6, 1, 0x195), (0x1F7, 0x1F7, 1, 0x1BF), (0x1F8, 0x21E, 2, 0x1F9),
   (0x220, 0x220, 1, 0x19E), (0x222, 0x232, 2, 0x223), (0x23A, 0x23A, 1, 0x2C65),
   (0x23B, 0x23B, 1, 0x23C), (0x23D, 0x23D, 1, 0x19A), (0x23E, 0x23E, 1, 0x2C66),
   (0x241, 0x241, 1, 0x242), (0x243, 0x243, 1, 0x180), (0x244, 0x244, 1, 0x289),
   (0x245, 0x245, 1, 0x28C), (0x246, 0x24E, 2, 0x247), (0x370, 0x372, 2, 0x371),
   (0x376, 0x376, 1, 0x377), (0x37F, 0x37F, 1, 0x3F3), (0x386, 0x386, 1, 0x3AC),
   (0x388, 0x38A, 1, 0x3AD), (0x38C, 0x38C, 1, 0x3CC), (0x38E, 0x38F, 1, 0x3CD),
   (0x391, 0x3A1, 1, 0x3B1), (0x3A3, 0x3AB, 1, 0x3C3), (0x3CF, 0x3CF, 1, 0x3D7),
   (0x3D8, 0x3EE, 2, 0x3D9), (0x3F4, 0x3F4, 1, 0x3B8), (0x3F7, 0x3F7, 1, 0x3F8),
   (0x3F9, 0x3F9, 1, 0x3F2), (0x3FA, 0x3FA, 1, 0x3FB), (0x3FD, 0x3FF, 1, 0x37B),
   (0x400, 0x40F, 1, 0x450), (0x410, 0x42F, 1, 0x430), (0x460, 0x480, 2, 0x461),
   (0x48A, 0x4BE, 2, 0x48B), (0x4C0, 0x4C0, 1, 0x4CF), (0x4C1, 0x4CD, 2, 0x4C2),
   (0x4D0, 0x52E, 2, 0x4D1), (0x531, 0x556, 1, 0x561), (0x10A0, 0x10C5, 1, 0x2D00),
   (0x10C7, 0x10C7, 1, 0x2D27), (0x10CD, 0x10CD, 1, 0x2D2D), (0x13A0, 0x13EF, 1, 0xAB70),
   (0x13F0, 0x13F5, 1, 0x13F8), (0x1C90, 0x1CBA, 1, 0x10D0), (0x1CBD, 0x1CBF, 1, 0x10FD),
   (0x1E00, 0x1E94, 2, 0x1E01), (0x1E9E, 0x1E9E, 1, 0xDF), (0x1EA0, 0x1EFE, 2, 0x1EA1),
   (0x1F08, 0x1F0F, 1, 0x1F00), (0x1F18, 0x1F1D, 1, 0x1F10), (0x1F28, 0x1F2F, 1, 0x1F20),
   (0x1F38, 0x1F3F, 1, 0x1F30), (0x1F48, 0x1F4D, 1, 0x1F40), (0x1F59, 0x1F5F, 2, 0x1F51),
   (0x1F68, 0x1F6F, 1, 0x1F60), (0x1F88, 0x1F8F, 1, 0x1F80), (0x1F98, 0x1F9F, 1, 0x1F90),
   (0x1FA8, 0x1FAF, 1, 0x1FA0), (0x1FB8, 0x1FB9, 1, 0x1FB0), (0x1FBA, 0x1FBB, 1, 0x1F70),
   (0x1FBC, 0x1FBC, 1, 0x1FB3), (0x1FC8, 0x1FCB, 1, 0x1F72), (0x1FCC, 0x1FCC, 1, 0x1FC3),
   (0x1FD8, 0x1FD9, 1, 0x1FD0), (0x1FDA, 0x1FDB, 1, 0x1F76), (0x1FE8, 0x1FE9, 1, 0x1FE0),
   (0x1FEA, 0x1FEB, 1, 0x1F7A), (0x1FEC, 0x1FEC, 1, 0x1FE5), (0x1FF8, 0x1FF9, 1, 0x1F78),
   (0x1FFA, 0x1FFB, 1, 0x1F7C), (0x1FFC, 0x1FFC, 1, 0x1FF3), (0x2126, 0x2126, 1, 0x3C9),
   (0x212A, 0x212A, 1, 0x6B), (0x212B, 0x212B, 1, 0xE5), (0x2132, 0x2132, 1, 0x214E),
   (0x2160, 0x216F, 1, 0x2170), (0x2183, 0x2183, 1, 0x2184), (0x24B6, 0x24CF, 1, 0x24D0),
   (0x2C00, 0x2C2F, 1, 0x2C30), (0x2C60, 0x2C60, 1, 0x2C61), (0x2C62, 0x2C62, 1, 0x26B),
   (0x2C63, 0x2C63, 1, 0x1D7D), (0x2C64, 0x2C64, 1, 0x27D), (0x2C67, 0x2C6B, 2, 0x2C68),
   (0x2C6D, 0x2C6D, 1, 0x251), (0x2C6E, 0x2C6E, 1, 0x271), (0x2C6F, 0x2C6F, 1, 0x250),
   (0x2C70, 0x2C70, 1, 0x252), (0x2C72, 0x2C72, 1, 0x2C73), (0x2C75, 0x2C75, 1, 0x2C76),
   (0x2C7E, 0x2C7F, 1, 0x23F), (0x2C80, 0x2CE2, 2, 0x2C81), (0x2CEB, 0x2CED, 2, 0x2CEC),
   (0x2CF2, 0x2CF2, 1, 0x2CF3), (0xA640, 0xA66C, 2, 0xA641), (0xA680, 0xA69A, 2, 0xA681),
   (0xA722, 0xA72E, 2, 0xA723), (0xA732, 0xA76E, 2, 0xA733), (0xA779, 0xA77B, 2, 0xA77A),
   (0xA77D, 0xA77D, 1, 0x1D79), (0xA77E, 0xA786, 2, 0xA77F), (0xA78B, 0xA78B, 1, 0xA78C),
   (0xA78D, 0xA78D, 1, 0x265), (0xA790, 0xA792, 2, 0xA791), (0xA796, 0xA7A8, 2, 0xA797),
   (0xA7AA, 0xA7AA, 1, 0x266), (0xA7AB, 0xA7AB, 1, 0x25C), (0xA7AC, 0xA7AC, 1, 0x261),
   (0xA7AD, 0xA7AD, 1, 0x26C), (0xA7AE, 0xA7AE, 1, 0x26A), (0xA7B0, 0xA7B0, 1, 0x29E),
   (0xA7B1, 0xA7B1, 1, 0x287), (0xA7B2, 0xA7B2, 1, 0x29D), (0xA7B3, 0xA7B3, 1, 0xAB53),
   (0xA7B4, 0xA7C2, 2, 0xA7B5), (0xA7C4, 0xA7C4, 1, 0xA794), (0xA7C5, 0xA7C5, 1, 0x282),
   (0xA7C6, 0xA7C6, 1, 0x1D8E), (0xA7C7, 0xA7C9, 2, 0xA7C8), (0xA7D0, 0xA7D0, 1, 0xA7D1),
   (0xA7D6, 0xA7D8, 2, 0xA7D7), (0xA7F5, 0xA7F5, 1, 0xA7F6), (0xFF21, 0xFF3A, 1, 0xFF41),
   (0x10400, 0x10427, 1, 0x10428), (0x104B0, 0x104D3, 1, 0x104D8),
   (0x10570, 0x1057A, 1, 0x10597), (0x1057C, 0x1058A, 1, 0x105A3),
   (0x1058C, 0x10592, 1, 0x105B3), (0x10594, 0x10595, 1, 0x105BB),
   (0x10C80, 0x10CB2, 1, 0x10CC0), (0x118A0, 0x118BF, 1, 0x118C0),
   (0x16E40, 0x16E5F, 1, 0x16E60), (0x1E900, 0x1E921, 1, 0x1E922)]

/-- The function `unicode.ToLower`: ASCII letters directly, every other rune through
the case table; a rune without a lower case is returned as it is. -/
def lowerRune (c : Char) : Char :=
  if c.toNat ≤ 0x7F then c.toLower
  else
    match caseRanges.find? (fun r =>
        decide (r.1 ≤ c.toNat) && decide (c.toNat ≤ r.2.1) &&
          decide ((c.toNat - r.1) % r.2.2.1 = 0)) with
    | some r => Char.ofNat (r.2.2.2 + (c.toNat - r.1))
    | none => c

/-- The function `strings.ToLower`: `unicode.ToLower` on every rune. -/
def ToLower (s : String) : String :=
  String.mk (s.data.map lowerRune)

/-- Worker of `Split`: the pieces of a character list between commas. -/
def splitComma : List Char → List (List Char)
  | [] => [[]]
  | c :: cs =>
    if c = ',' then [] :: splitComma cs
    else
      match splitComma cs with
      | [] => [[c]]
      | p :: ps => (c :: p) :: ps

/-- The call `strings.Split(s, ",")`. -/
def Split (s : String) : List String :=
  (splitComma s.data).map String.mk

/-! ## strconv -/

/-- The two errors of `strconv`: `ErrSyntax` and `ErrRange`. -/
inductive NumError
  | ErrSyntax
  | ErrRange
  deriving DecidableEq, Repr

/-- ASCII decimal digit. -/
def isDigit (c : Char) : Bool :=
  decide ('0'.toNat ≤ c.toNat) && decide (c.toNat ≤ '9'.toNat)

/-- Value of an ASCII decimal digit. -/
def digitVal (c : Char) : Nat :=
  c.toNat - '0'.toNat

/-- The accumulation loop `n = n*10 + int(ch - '0')`. -/
def accumulate (ds : List Char) : Nat :=
  ds.foldl (fun n ch => n * 10 + digitVal ch) 0

/-- The largest `uint64`. -/
def maxUint64 : Nat := 2 ^ 64 - 1

/-- The loop of `strconv.ParseUint` in base 10 with 64 bits, from the value `n` read
so far: a character that is not a digit is a syntax error with the value 0; a digit
at which `n * 10` or `n * 10 + d` leaves `uint64` is a range error with the value
`maxUint64`, returned there without reading on. -/
def parseUintLoop : List Char → Nat → Nat × Option NumError
  | [], n => (n, none)
  | c :: cs, n =>
    if !isDigit c then (0, some NumError.ErrSyntax)
    else if maxUint64 / 10 + 1 ≤ n then (maxUint64, some NumError.ErrRange)
    else if maxUint64 < n * 10 + digitVal c then (maxUint64, some NumError.ErrRange)
    else parseUintLoop cs (n * 10 + digitVal c)

/-- The call `strconv.ParseUint(s, 10, 0)`. -/
def ParseUint (s : List Char) : Nat × Option NumError :=
  if s.isEmpty then (0, some NumError.ErrSyntax) else parseUintLoop s 0

/-- The call `strconv.ParseInt(s, 10, 0)`: an optional sign, then `ParseUint`. A syntax
error gives the value 0; a magnitude outside `int`, a range error of `ParseUint`
included, gives the nearest bound of `int` and a range error. -/
def ParseInt (s : List Char) : Int × Option NumError :=
  if s.isEmpty then (0, some NumError.ErrSyntax)
  else
    let neg := s.head? == some '-'
    let ds := if s.head? == some '+' || s.head? == some '-' then s.tail else s
    match ParseUint ds with
    | (_, some NumError.ErrSyntax) => (0, some NumError.ErrSyntax)
    | (un, _) =>
      if !neg && decide (2 ^ 63 ≤ un) then ((2 : Int) ^ 63 - 1, some NumError.ErrRange)
      else if neg && decide (2 ^ 63 < un) then (-((2 : Int) ^ 63), some NumError.ErrRange)
      else (if neg then -(un : Int) else (un : Int), none)

/-- The function `strconv.Atoi` with a 64-bit `int`: the fast path for a string of 1 to
18 bytes (sign, then the digit loop without a range check), and `ParseInt` for every
other string. -/
def Atoi (s : String) : Int × Option NumError :=
  if 0 < s.utf8ByteSize ∧ s.utf8ByteSize < 19 then
    let cs := s.data
    let ds := if cs.head? == some '-' || cs.head? == some '+' then cs.tail else cs
    if ds.isEmpty then (0, some NumError.ErrSyntax)
    else if !ds.all isDigit then (0, some NumError.ErrSyntax)
    else (if cs.head? == some '-' then -(accumulate ds : Int) else (accumulate ds : Int), none)
  else ParseInt s.data

/-- The function `strconv.ParseBool`. -/
def ParseBool (s : String) : Bool × Option NumError :=
  if s = "1" ∨ s = "t" ∨ s = "T" ∨ s = "TRUE" ∨ s = "true" ∨ s = "True" then (true, none)
  else if s = "0" ∨ s = "f" ∨ s = "F" ∨ s = "FALSE" ∨ s = "false" ∨ s = "False" then
    (false, none)
  else (false, some NumError.ErrSyntax)

/-- Conversion of an `int` to a signed integer type of `w` bits (two's complement). -/
def wrapSigned (w : Nat) (n : Int) : Int :=
  (n + 2 ^ (w - 1)) % 2 ^ w - 2 ^ (w - 1)

/-- Conversion of an `int` to an unsigned integer type of `w` bits. -/
def wrapUnsigned (w : Nat) (n : Int) : Int :=
  n % 2 ^ w

/-! ## reflect: kinds, types, values -/

/-- The kinds of `reflect.Kind` that the code names, `Invalid`, and `Other` for the
remaining ones (arrays, maps, channels, functions, interfaces, complex numbers,
`uintptr`). -/
inductive Kind
  | Invalid
  | Bool
  | Int
  | Int8
  | Int16
  | Int32
  | Int64
  | Uint
  | Uint8
  | Uint16
  | Uint32
  | Uint64
  | Float32
  | Float64
  | Ptr
  | Slice
  | String
  | Struct
  | Other
  deriving DecidableEq, Repr

/-- Go types. `named` is a defined type (`type Name string`); the predeclared types
are the constructors `bool` ... `string`; `other` is any type of kind `Other`. -/
inductive GoType
  | bool
  | int
  | int8
  | int16
  | int32
  | int64
  | uint
  | uint8
  | uint16
  | uint32
  | uint64
  | float32
  | float64
  | string
  | slice (elem : GoType)
  | ptr (elem : GoType)
  | struct (descr : String)
  | other (descr : String)
  | named (name : String) (underlying : GoType)
  deriving DecidableEq, Repr

namespace GoType

/-- The method `Type.Kind()`. -/
def Kind : GoType → Kaa.Kind
  | bool => .Bool
  | int => .Int
  | int8 => .Int8
  | int16 => .Int16
  | int32 => .Int32
  | int64 => .Int64
  | uint => .Uint
  | uint8 => .Uint8
  | uint16 => .Uint16
  | uint32 => .Uint32
  | uint64 => .Uint64
  | float32 => .Float32
  | float64 => .Float64
  | string => .String
  | slice _ => .Slice
  | ptr _ => .Ptr
  | struct _ => .Struct
  | other _ => .Other
  | named _ u => u.Kind

/-- The underlying type. -/
def underlying : GoType → GoType
  | named _ u => u.underlying
  | t => t

/-- The method `Type.Elem()` of a pointer or slice type. -/
def Elem (t : GoType) : GoType :=
  match t.underlying with
  | slice e => e
  | ptr e => e
  | u => u

/-- Whether the type has a name: defined types and the predeclared types. -/
def hasName : GoType → Bool
  | slice _ => false
  | ptr _ => false
  | struct _ => false
  | other _ => false
  | _ => true

/-- Assignability as `reflect.Value.Set` checks it for a value of type `V` and a
destination of type `T` that is not an interface: the types are identical, or at
most one of them has a name and their underlying types are identical. -/
def assignable (T V : GoType) : Bool :=
  decide (T = V) ||
    (!(T.hasName && V.hasName) && decide (T.underlying = V.underlying))

end GoType

/-- The contents of a Go value. Integers of every width share `int`; floats are
their bit pattern; `nil` is a nil pointer or slice; `ref` is a non-nil pointer. -/
inductive GoValue
  | bool (b : Bool)
  | int (n : Int)
  | float (bits : Nat)
  | string (s : String)
  | strings (xs : List String)
  | ints (xs : List Int)
  | bools (xs : List Bool)
  | nil
  | ref (target : GoValue)
  | other (id : Nat)
  deriving DecidableEq, Repr

/-- A valid `reflect.Value`: a dynamic type and contents. -/
structure Value where
  typ : GoType
  data : GoValue
  deriving DecidableEq, Repr

/-- The method `Value.Kind()`; the invalid value has kind `Invalid`. -/
def Value.Kind : Option Value → Kaa.Kind
  | none => .Invalid
  | some v => v.typ.Kind

/-- The zero value of a type. -/
def zeroValue : GoType → GoValue
  | .bool => .bool false
  | .int | .int8 | .int16 | .int32 | .int64 => .int 0
  | .uint | .uint8 | .uint16 | .uint32 | .uint64 => .int 0
  | .float32 | .float64 => .float 0
  | .string => .string ""
  | .slice _ => .nil
  | .ptr _ => .nil
  | .struct _ => .other 0
  | .other _ => .other 0
  | .named _ u => zeroValue u

/-! ## pflag: the flag store behind `cobra.Command.Flags()` -/

/-- The type of a registered flag with its current value, as the typed getter of that
type reports it; `otherType` is a flag of a type without a getter used here. -/
inductive FlagValue
  | string (s : String)
  | int (n : Int)
  | bool (b : Bool)
  | float32 (bits : Nat)
  | float64 (bits : Nat)
  | stringSlice (xs : List String)
  | intSlice (xs : List Int)
  | boolSlice (xs : List Bool)
  | otherType (typeName : String)
  deriving DecidableEq, Repr

/-- A registered flag. -/
structure Flag where
  Name : String
  Value : FlagValue
  deriving DecidableEq, Repr

/-- The errors of `FlagSet.getFlagType`. -/
inductive FlagError
  | notDefined
  | wrongType
  deriving DecidableEq, Repr

/-- The type `pflag.FlagSet`: the registered flags. -/
structure FlagSet where
  formal : List Flag
  deriving DecidableEq, Repr

namespace FlagSet

/-- The method `FlagSet.Lookup`. -/
def Lookup (f : FlagSet) (name : String) : Option Flag :=
  f.formal.find? (fun fl => fl.Name == name)

/-- The error `getFlagType` gives for a flag that is missing or of another type. -/
def lookupError (f : FlagSet) (name : String) : FlagError :=
  match f.Lookup name with
  | none => .notDefined
  | some _ => .wrongType

/-- The method `GetString`: on error the result is `""`. -/
def GetString (f : FlagSet) (name : String) : String × Option FlagError :=
  match f.Lookup name with
  | some ⟨_, .string s⟩ => (s, none)
  | _ => ("", some (f.lookupError name))

/-- The method `GetInt`: on error the result is `0`. -/
def GetInt (f : FlagSet) (name : String) : Int × Option FlagError :=
  match f.Lookup name with
  | some ⟨_, .int n⟩ => (n, none)
  | _ => (0, some (f.lookupError name))

/-- The method `GetBool`: on error the result is `false`. -/
def GetBool (f : FlagSet) (name : String) : Bool × Option FlagError :=
  match f.Lookup name with
  | some ⟨_, .bool b⟩ => (b, none)
  | _ => (false, some (f.lookupError name))

/-- The method `GetFloat32`: on error the result is `0`. -/
def GetFloat32 (f : FlagSet) (name : String) : Nat × Option FlagError :=
  match f.Lookup name with
  | some ⟨_, .float32 x⟩ => (x, none)
  | _ => (0, some (f.lookupError name))

/-- The method `GetFloat64`: on error the result is `0`. -/
def GetFloat64 (f : FlagSet) (name : String) : Nat × Option FlagError :=
  match f.Lookup name with
  | some ⟨_, .float64 x⟩ => (x, none)
  | _ => (0, some (f.lookupError name))

/-- The method `GetStringSlice`: on error the result is the empty slice `[]string{}`. -/
def GetStringSlice (f : FlagSet) (name : String) : List String × Option FlagError :=
  match f.Lookup name with
  | some ⟨_, .stringSlice xs⟩ => (xs, none)
  | _ => ([], some (f.lookupError name))

/-- The method `GetIntSlice`: on error the result is the empty slice `[]int{}`. -/
def GetIntSlice (f : FlagSet) (name : String) : List Int × Option FlagError :=
  match f.Lookup name with
  | some ⟨_, .intSlice xs⟩ => (xs, none)
  | _ => ([], some (f.lookupError name))

/-- The method `GetBoolSlice`: on error the result is the empty slice `[]bool{}`. -/
def GetBoolSlice (f : FlagSet) (name : String) : List Bool × Option FlagError :=
  match f.Lookup name with
  | some ⟨_, .boolSlice xs⟩ => (xs, none)
  | _ => ([], some (f.lookupError name))

end FlagSet

/-- The type `cobra.Command`, as far as the code uses it: its flag set. -/
structure Command where
  flags : FlagSet
  deriving DecidableEq, Repr

/-! ## context.go -/

/-- The ways a call can panic. -/
inductive Panic
  | indexOutOfRange
  | notAssignable
  | nilDereference
  deriving DecidableEq, Repr

/-- The struct `cmdArg`. -/
structure cmdArg where
  index : Int
  isOptional : Bool
  deriving DecidableEq, Repr

/-- The function `cmdArgFromTagStr`; `none` is the nil pointer. -/
def cmdArgFromTagStr (tagStr : String) : Option cmdArg :=
  if tagStr ≠ "" then
    let argFlagVals := Split tagStr
    let (argInd, err) := Atoi (argFlagVals.headD "")
    if err ≠ none then none
    else
      some
        { index := argInd
          isOptional :=
            if 1 < argFlagVals.length then
              decide (ToLower (argFlagVals.getD 1 "") = "optional")
            else false }
  else none

/-- The struct `cmdFlag`. -/
structure cmdFlag where
  name : String
  deriving DecidableEq, Repr

/-- The function `cmdFlagFromTagStr`; `none` is the nil pointer. -/
def cmdFlagFromTagStr (tagStr : String) : Option cmdFlag :=
  if tagStr ≠ "" then some { name := tagStr } else none

/-- The struct `contextImpl`; `cmd = none` is a nil `*cobra.Command` and
`error = none` a nil `error`. -/
structure contextImpl where
  cmd : Option Command
  args : List String
  error : Option String
  deriving DecidableEq, Repr

/-- The function `NewContext`. -/
def NewContext (cmd : Option Command) (args : List String) : contextImpl :=
  { cmd := cmd, args := args, error := none }

namespace contextImpl

/-- The method `Error`. -/
def Error (c : contextImpl) : Option String :=
  c.error

/-- The method `GetCommand`. -/
def GetCommand (c : contextImpl) : Option Command :=
  c.cmd

/-- The method `GetArgs`. -/
def GetArgs (c : contextImpl) : List String :=
  c.args

end contextImpl

/-- The function `stripPtr`: follows pointers while the kind is `Ptr`. `Elem()` of a
nil pointer is the invalid value, whose kind is `Invalid`, so the loop stops there. -/
def stripPtr : GoType → GoValue → Option Value
  | t, .ref target => if t.Kind = .Ptr then stripPtr t.Elem target else some ⟨t, .ref target⟩
  | t, d => if t.Kind = .Ptr then none else some ⟨t, d⟩

/-- The method `findType`: the value of `val` wrapped by `reflect.ValueOf`, or `none`
for the nil result. The argument is the field as a `reflect.Value`. -/
def findType (raw : String) (typ : GoType) (data : GoValue) : Option Value :=
  match Value.Kind (stripPtr typ data) with
  | .String => some ⟨.string, .string raw⟩
  | .Int => some ⟨.int, .int (Atoi raw).1⟩
  | .Int8 => some ⟨.int8, .int (wrapSigned 8 (Atoi raw).1)⟩
  | .Int16 => some ⟨.int16, .int (wrapSigned 16 (Atoi raw).1)⟩
  | .Int32 => some ⟨.int32, .int (wrapSigned 32 (Atoi raw).1)⟩
  | .Int64 => some ⟨.int64, .int (wrapSigned 64 (Atoi raw).1)⟩
  | .Uint => some ⟨.uint, .int (wrapUnsigned 64 (Atoi raw).1)⟩
  | .Uint8 => some ⟨.uint8, .int (wrapUnsigned 8 (Atoi raw).1)⟩
  | .Uint16 => some ⟨.uint16, .int (wrapUnsigned 16 (Atoi raw).1)⟩
  | .Uint32 => some ⟨.uint32, .int (wrapUnsigned 32 (Atoi raw).1)⟩
  | .Uint64 => some ⟨.uint64, .int (wrapUnsigned 64 (Atoi raw).1)⟩
  | .Bool => some ⟨.bool, .bool (ParseBool raw).1⟩
  | _ => none

/-- The method `findSliceFlagType`; `value` is the element type. The command is
dereferenced only inside a matching case. -/
def findSliceFlagType (c : contextImpl) (flag : String) (value : GoType) :
    Except Panic (Option Value) :=
  match value.Kind with
  | .String =>
    match c.GetCommand with
    | none => .error .nilDereference
    | some cmd => .ok (some ⟨.slice .string, .strings (cmd.flags.GetStringSlice flag).1⟩)
  | .Int =>
    match c.GetCommand with
    | none => .error .nilDereference
    | some cmd => .ok (some ⟨.slice .int, .ints (cmd.flags.GetIntSlice flag).1⟩)
  | .Bool =>
    match c.GetCommand with
    | none => .error .nilDereference
    | some cmd => .ok (some ⟨.slice .bool, .bools (cmd.flags.GetBoolSlice flag).1⟩)
  | _ => .ok none

/-- The method `findFlagType`; `value` is the field's type. A getter's error is
dropped and its value kept, so the result is non-nil in every matching scalar case. -/
def findFlagType (c : contextImpl) (flag : String) (value : GoType) :
    Except Panic (Option Value) :=
  match value.Kind with
  | .String =>
    match c.GetCommand with
    | none => .error .nilDereference
    | some cmd => .ok (some ⟨.string, .string (cmd.flags.GetString flag).1⟩)
  | .Slice => findSliceFlagType c flag value.Elem
  | .Int =>
    match c.GetCommand with
    | none => .error .nilDereference
    | some cmd => .ok (some ⟨.int, .int (cmd.flags.GetInt flag).1⟩)
  | .Bool =>
    match c.GetCommand with
    | none => .error .nilDereference
    | some cmd => .ok (some ⟨.bool, .bool (cmd.flags.GetBool flag).1⟩)
  | .Float32 =>
    match c.GetCommand with
    | none => .error .nilDereference
    | some cmd => .ok (some ⟨.float32, .float (cmd.flags.GetFloat32 flag).1⟩)
  | .Float64 =>
    match c.GetCommand with
    | none => .error .nilDereference
    | some cmd => .ok (some ⟨.float64, .float (cmd.flags.GetFloat64 flag).1⟩)
  | _ => .ok none

/-- A struct tag in parsed form: the key/value pairs of the tag string. -/
abbrev StructTag := List (String × String)

/-- The method `StructTag.Get`: the value of the key, or `""`. -/
def StructTag.Get (tag : StructTag) (key : String) : String :=
  match tag.find? (fun kv => kv.1 == key) with
  | some kv => kv.2
  | none => ""

/-- A field of the target struct: its `reflect.StructField` (name, package path, type `Typ`,
tag) and its current contents. `PkgPath` is empty exactly for exported fields. -/
structure StructField where
  Name : String
  PkgPath : String
  Typ : GoType
  Tag : StructTag
  val : GoValue
  deriving DecidableEq, Repr

namespace StructField

/-- The method `Value.CanSet` of a field reached through a struct pointer: the field
is addressable, so it is settable exactly when it is exported. -/
def CanSet (f : StructField) : Bool :=
  f.PkgPath == ""

/-- The method `Value.Set` on the field: panics unless the value is assignable to the
field's type. -/
def Set (f : StructField) (x : Value) : Except Panic StructField :=
  if f.Typ.assignable x.typ then .ok { f with val := x.data }
  else .error .notAssignable

end StructField

/-- What the body of the loop of `Bind` does for one field. -/
inductive Step
  | next (f : StructField)
  | ret (msg : String)
  | panic (p : Panic)
  deriving DecidableEq, Repr

/-- The text of the error of `Bind`. -/
def notEnoughArgs (name : String) : String :=
  "not enough args, " ++ ToLower name ++ " is required"

/-- The body of the loop of `Bind` for one field. -/
def bindField (c : contextImpl) (f : StructField) : Step :=
  if f.CanSet then
    let arg := f.Tag.Get "arg"
    let flag := f.Tag.Get "flag"
    match cmdArgFromTagStr arg with
    | some cmdArg =>
      if (c.args.length : Int) ≤ cmdArg.index then
        if !cmdArg.isOptional then .ret (notEnoughArgs f.Name)
        else .next f
      else if cmdArg.index < 0 then .panic .indexOutOfRange
      else
        match c.args[cmdArg.index.toNat]? with
        | none => .panic .indexOutOfRange
        | some raw =>
          match findType raw f.Typ f.val with
          | some foundType =>
            match f.Set foundType with
            | .ok f1 => .next f1
            | .error p => .panic p
          | none => .next f
    | none =>
      match cmdFlagFromTagStr flag with
      | some _ =>
        match findFlagType c flag f.Typ with
        | .error p => .panic p
        | .ok (some val) =>
          match f.Set val with
          | .ok f1 => .next f1
          | .error p => .panic p
        | .ok none => .next f
      | none => .next f
  else .next f

/-- How a call of `Bind` ends. -/
inductive Outcome
  | nil
  | error (msg : String)
  | panic (p : Panic)
  deriving DecidableEq, Repr

/-- The loop of `Bind` over the fields in declaration order: the fields as the loop
leaves them, and how it ends. -/
def bindFields (c : contextImpl) : List StructField → List StructField × Outcome
  | [] => ([], .nil)
  | f :: fs =>
    match bindField c f with
    | .next f1 => ((f1 :: (bindFields c fs).1), (bindFields c fs).2)
    | .ret msg => (f :: fs, .error msg)
    | .panic p => (f :: fs, .panic p)

/-- What a non-nil pointer passed to `Bind` points to: a struct with its fields, or a
value of another kind (not `Struct`). -/
inductive Pointee
  | struct (fields : List StructField)
  | nonStruct (k : Kind)
  deriving DecidableEq, Repr

/-- The dynamic content of the argument `structPtr interface{}`: a nil interface, a
value that is not a pointer (of kind `k`, not `Ptr`), or a pointer, nil or not. -/
inductive Arg
  | nilInterface
  | nonPointer (k : Kind)
  | pointer (target : Option Pointee)
  deriving DecidableEq, Repr

/-- Kind of `reflect.ValueOf(structPtr)`. -/
def Arg.Kind : Arg → Kaa.Kind
  | .nilInterface => .Invalid
  | .nonPointer k => k
  | .pointer _ => .Ptr

/-- Kind of `reflect.ValueOf(structPtr).Elem()` for a pointer. -/
def Arg.ElemKind : Arg → Kaa.Kind
  | .pointer (some (.struct _)) => .Struct
  | .pointer (some (.nonStruct k)) => k
  | _ => .Invalid

/-- The method `isStructPtr`. -/
def isStructPtr (value : Arg) : Bool :=
  decide (value.Kind = .Ptr) && decide (value.ElemKind = .Struct)

/-- The state after a call of `Bind`: the context, the argument with what it points
to, and how the call ended. -/
structure BindResult where
  ctx : contextImpl
  target : Arg
  out : Outcome
  deriving DecidableEq, Repr

/-- The method `Bind`. -/
def Bind (c : contextImpl) (structPtr : Arg) : BindResult :=
  if !isStructPtr structPtr then { ctx := c, target := structPtr, out := .nil }
  else
    match structPtr with
    | .pointer (some (.struct fields)) =>
      { ctx := c
        target := .pointer (some (.struct (bindFields c fields).1))
        out := (bindFields c fields).2 }
    | _ => { ctx := c, target := structPtr, out := .nil }

/-! ## The struct of the tests -/

/-- The struct `myCmdPayload` of `context_test.go` with the given contents. -/
def myCmdPayload (Username : GoValue) (Id : GoValue) (Height : GoValue) (Env : GoValue)
    (StringSlice : GoValue) (Boolean : GoValue) : List StructField :=
  [ { Name := "Username", PkgPath := "", Typ := .string, Tag := [("arg", "0")],
      val := Username },
    { Name := "Id", PkgPath := "", Typ := .uint, Tag := [("arg", "1")], val := Id },
    { Name := "Height", PkgPath := "", Typ := .ptr .int, Tag := [("arg", "2,optional")],
      val := Height },
    { Name := "Env", PkgPath := "", Typ := .string, Tag := [("flag", "env")], val := Env },
    { Name := "StringSlice", PkgPath := "", Typ := .slice .string,
      Tag := [("flag", "string_slice")], val := StringSlice },
    { Name := "Boolean", PkgPath := "", Typ := .bool, Tag := [("flag", "boolean")],
      val := Boolean } ]

/-- The value `new(myCmdPayload)`: every field at its zero value. -/
def newPayload : List StructField :=
  myCmdPayload (.string "") (.int 0) .nil (.string "") .nil (.bool false)

/-- The command of `baseCmd` after the three `Set` calls of the tests. -/
def testCmd : Command :=
  { flags := { formal :=
      [ ⟨"env", .string "dev"⟩, ⟨"boolean", .bool true⟩,
        ⟨"string_slice", .stringSlice ["1", "2", "3"]⟩ ] } }

/-- The struct of scenario 3: `myCmdPayload` with `Height` annotated `arg:"2"`. -/
def requiredPayload (Username : GoValue) (Id : GoValue) (Height : GoValue) (Env : GoValue)
    (StringSlice : GoValue) (Boolean : GoValue) : List StructField :=
  [ { Name := "Username", PkgPath := "", Typ := .string, Tag := [("arg", "0")],
      val := Username },
    { Name := "Id", PkgPath := "", Typ := .uint, Tag := [("arg", "1")], val := Id },
    { Name := "Height", PkgPath := "", Typ := .ptr .int, Tag := [("arg", "2")],
      val := Height },
    { Name := "Env", PkgPath := "", Typ := .string, Tag := [("flag", "env")], val := Env },
    { Name := "StringSlice", PkgPath := "", Typ := .slice .string,
      Tag := [("flag", "string_slice")], val := StringSlice },
    { Name := "Boolean", PkgPath := "", Typ := .bool, Tag := [("flag", "boolean")],
      val := Boolean } ]

/-- The command of `baseCmd` with the three registered flags set to the given values. -/
def baseCmd (env : String) (boolean : Bool) (stringSlice : List String) : Command :=
  { flags := { formal :=
      [ ⟨"env", .string env⟩, ⟨"boolean", .bool boolean⟩,
        ⟨"string_slice", .stringSlice stringSlice⟩ ] } }

/-- A pointer to a struct with the given fields, as passed to `Bind`. -/
def structPtr (fields : List StructField) : Arg :=
  .pointer (some (.struct fields))

/-! ## Notions used to state the properties -/

/-- The token is a decimal number: one or more ASCII digits. -/
def isDecimal (tok : String) : Prop :=
  tok.data ≠ [] ∧ tok.data.all isDigit = true

instance (tok : String) : Decidable (isDecimal tok) := by
  unfold isDecimal; infer_instance

/-- The number a string of decimal digits writes (most significant digit first). -/
def decimalValue (tok : String) : Nat :=
  Nat.ofDigits 10 (tok.data.map digitVal).reverse

/-- The field is settable and carries a positional annotation that parses, is not
marked optional, and has an index at or beyond the number of arguments. -/
def requiredMissing (c : contextImpl) (f : StructField) : Bool :=
  f.CanSet &&
    match cmdArgFromTagStr (f.Tag.Get "arg") with
    | some a => !a.isOptional && decide ((c.args.length : Int) ≤ a.index)
    | none => false

/-- The positional annotation of the field, if it parses, has a non-negative index. -/
def nonNegIndex (f : StructField) : Bool :=
  match cmdArgFromTagStr (f.Tag.Get "arg") with
  | some a => decide (0 ≤ a.index)
  | none => true

/-- What a step of the loop does that can be observed: the contents the field has
afterwards, or the way the loop stops. -/
def Step.observe : Step → GoValue ⊕ Outcome
  | .next f => .inl f.val
  | .ret msg => .inr (.error msg)
  | .panic p => .inr (.panic p)

/-- The kinds of field for which `findFlagType` calls a getter. -/
def supportedFlagType (t : GoType) : Bool :=
  match t.Kind with
  | .String | .Int | .Bool | .Float32 | .Float64 => true
  | .Slice =>
    match t.Elem.Kind with
    | .String | .Int | .Bool => true
    | _ => false
  | _ => false

/-- The value a typed getter returns together with its error, for a field of one of
the predeclared supported types: the zero value, or an empty slice. -/
def getterFallback : GoType → Option GoValue
  | .string => some (.string "")
  | .int => some (.int 0)
  | .bool => some (.bool false)
  | .float32 => some (.float 0)
  | .float64 => some (.float 0)
  | .slice .string => some (.strings [])
  | .slice .int => some (.ints [])
  | .slice .bool => some (.bools [])
  | _ => none

/-- The current value of a registered flag whose type matches the field type `t`, as
the typed getter for that type returns it. -/
def matchingValue : GoType → FlagValue → Option GoValue
  | .string, .string s => some (.string s)
  | .int, .int n => some (.int n)
  | .bool, .bool b => some (.bool b)
  | .float32, .float32 x => some (.float x)
  | .float64, .float64 x => some (.float x)
  | .slice .string, .stringSlice xs => some (.strings xs)
  | .slice .int, .intSlice xs => some (.ints xs)
  | .slice .bool, .boolSlice xs => some (.bools xs)
  | _, _ => none

/-- The predeclared integer types: whether the type is signed, and its width in bits
(a defined type such as `type Age int` is not among them). -/
def intKind : GoType → Option (Bool × Nat)
  | .int => some (true, 64)
  | .int8 => some (true, 8)
  | .int16 => some (true, 16)
  | .int32 => some (true, 32)
  | .int64 => some (true, 64)
  | .uint => some (false, 64)
  | .uint8 => some (false, 8)
  | .uint16 => some (false, 16)
  | .uint32 => some (false, 32)
  | .uint64 => some (false, 64)
  | _ => none

/-- The value `v` is representable in an integer type of the given signedness and
width. -/
def representable (signed : Bool) (w : Nat) (v : Int) : Prop :=
  if signed then -(2 ^ (w - 1) : Int) ≤ v ∧ v < 2 ^ (w - 1) else 0 ≤ v ∧ v < 2 ^ w

instance (signed : Bool) (w : Nat) (v : Int) : Decidable (representable signed w v) := by
  unfold representable; infer_instance

/-- The value `n` fits the 64-bit `int`. -/
def fitsInt (n : Int) : Prop :=
  -(2 ^ 63 : Int) ≤ n ∧ n < 2 ^ 63

instance (n : Int) : Decidable (fitsInt n) := by
  unfold fitsInt; infer_instance

/-- The token is the decimal representation of the integer `v`: a string of digits
that writes `v`, or `-` followed by a string of digits that writes `-v`. -/
def writes (tok : String) (v : Int) : Prop :=
  (isDecimal tok ∧ v = decimalValue tok) ∨
    (∃ ds : String, tok.data = '-' :: ds.data ∧ isDecimal ds ∧ v = -(decimalValue ds : Int))

/-- The integer `n` reduced modulo `2 ^ w` and reinterpreted in a type of the given
signedness: a residue from `2 ^ (w - 1)` on is negative in a signed type. -/
def truncate (signed : Bool) (w : Nat) (n : Int) : Int :=
  if signed && decide ((2 : Int) ^ (w - 1) ≤ n % 2 ^ w) then n % 2 ^ w - 2 ^ w else n % 2 ^ w

/-- The tokens `strconv.ParseBool` reads as true. -/
def trueTokens : List String :=
  ["1", "t", "T", "TRUE", "true", "True"]

/-! ## kaa.go -/

/-- What the callback of `Handle` does that can be observed from outside: the call of
the runner at a position of the list with a context, the printing of the usage text
(`cmd.Usage()`), the end of the process (`os.Exit`), and a panic. -/
inductive Event
  | call (i : Nat) (ctx : contextImpl)
  | usage
  | exit (code : Int)
  | panic (p : Panic)
  deriving DecidableEq, Repr

/-- The type `Runner`: a handler reads the context and the state of the program `σ`,
may change that state, and returns an error (`some`) or nil (`none`). -/
abbrev Runner (σ : Type) := contextImpl → σ → Option String × σ

/-- How a call of the callback ends: the events in order, the state of the program,
and whether the callback returned (it does not when the process was ended or the
callback panicked). -/
structure HandleResult (σ : Type) where
  trace : List Event
  state : σ
  returned : Bool

/-- The loop `for _, r := range runners` of the callback; `i` is the position of the
first runner of the list. When a runner returns an error, `cmd.Usage()` is called:
on a nil command it panics with a nil dereference, otherwise the usage text is
printed and `os.Exit(1)` ends the process. -/
def runRunners {σ : Type} (cmd : Option Command) (ctx : contextImpl) :
    Nat → List (Runner σ) → σ → HandleResult σ
  | _, [], s => { trace := [], state := s, returned := true }
  | i, r :: rs, s =>
    match r ctx s with
    | (some _, s1) =>
      match cmd with
      | none =>
        { trace := [.call i ctx, .panic .nilDereference], state := s1, returned := false }
      | some _ =>
        { trace := [.call i ctx, .usage, .exit 1], state := s1, returned := false }
    | (none, s1) =>
      { trace := .call i ctx :: (runRunners cmd ctx (i + 1) rs s1).trace
        state := (runRunners cmd ctx (i + 1) rs s1).state
        returned := (runRunners cmd ctx (i + 1) rs s1).returned }

/-- The function `Handle`: the callback for the runners, applied to the command and
the arguments. -/
def Handle {σ : Type} (runners : List (Runner σ)) (cmd : Option Command)
    (args : List String) (s : σ) : HandleResult σ :=
  runRunners cmd (NewContext cmd args) 0 runners s

/-- The position of the first runner that returns an error when the runners are run
in order, each from the state the one before it left, if there is one. -/
def firstFailure {σ : Type} (ctx : contextImpl) : List (Runner σ) → σ → Option Nat
  | [], _ => none
  | r :: rs, s =>
    match r ctx s with
    | (some _, _) => some 0
    | (none, s1) => (firstFailure ctx rs s1).map (· + 1)

/-! ## Lemmas on the library functions -/

theorem accumulate_snoc (ds : List Char) (c : Char) :
    accumulate (ds ++ [c]) = accumulate ds * 10 + digitVal c := by
  simp [accumulate, List.foldl_append]

theorem accumulate_eq_ofDigits (ds : List Char) :
    accumulate ds = Nat.ofDigits 10 (ds.map digitVal).reverse := by
  induction ds using List.reverseRecOn with
  | nil => simp [accumulate]
  | append_singleton ds c ih =>
    rw [accumulate_snoc, ih]
    simp [Nat.ofDigits_cons]
    ring

theorem isDigit_ne_sign {c : Char} (h : isDigit c = true) : c ≠ '+' ∧ c ≠ '-' := by
  constructor <;> rintro rfl <;> revert h <;> decide

theorem digitVal_le {c : Char} (h : isDigit c = true) : digitVal c ≤ 9 := by
  simp only [isDigit, Bool.and_eq_true, decide_eq_true_eq] at h
  have h9 : '9'.toNat = 57 := rfl
  have h0 : '0'.toNat = 48 := rfl
  unfold digitVal
  omega

theorem utf8ByteSize_go_ge (cs : List Char) : cs.length ≤ String.utf8ByteSize.go cs := by
  induction cs with
  | nil => simp [String.utf8ByteSize.go]
  | cons c cs ih =>
    have := Char.utf8Size_pos c
    simp only [String.utf8ByteSize.go, List.length_cons]
    omega

theorem utf8ByteSize_ge_length (s : String) : s.data.length ≤ s.utf8ByteSize := by
  cases s with
  | mk cs => exact utf8ByteSize_go_ge cs

/-- On digits whose value stays within `uint64`, the loop of `ParseUint` returns the
value and no error. -/
theorem parseUintLoop_digits (ds : List Char) :
    ∀ n : Nat, ds.all isDigit = true →
      ds.foldl (fun n ch => n * 10 + digitVal ch) n ≤ maxUint64 →
      parseUintLoop ds n = (ds.foldl (fun n ch => n * 10 + digitVal ch) n, none) := by
  induction ds with
  | nil => intro n _ _; rfl
  | cons c cs ih =>
    intro n hall hle
    simp only [List.all_cons, Bool.and_eq_true] at hall
    simp only [List.foldl_cons] at hle ⊢
    have hmono : ∀ (l : List Char) (m : Nat),
        m ≤ l.foldl (fun n ch => n * 10 + digitVal ch) m := by
      intro l
      induction l with
      | nil => intro m; exact Nat.le_refl _
      | cons x xs ihx =>
        intro m
        simp only [List.foldl_cons]
        exact Nat.le_trans (by omega) (ihx (m * 10 + digitVal x))
    have h1 := hmono cs (n * 10 + digitVal c)
    have hmax : maxUint64 = 18446744073709551615 := by decide
    rw [parseUintLoop]
    have c1 : ¬ (maxUint64 / 10 + 1 ≤ n) := by rw [hmax]; rw [hmax] at hle; omega
    have c2 : ¬ (maxUint64 < n * 10 + digitVal c) := by omega
    simp only [hall.1, Bool.not_true, Bool.false_eq_true, if_false, c1, c2]
    exact ih _ hall.2 hle

/-- On at most 18 characters the loop of `ParseUint` cannot leave `uint64`: it returns
the value when all are digits, and a syntax error otherwise. -/
theorem parseUintLoop_small (ds : List Char) :
    ∀ n k : Nat, n < 10 ^ k → k + ds.length ≤ 18 →
      (ds.all isDigit = true →
        ds.foldl (fun n ch => n * 10 + digitVal ch) n < 10 ^ (k + ds.length)) ∧
      (ds.all isDigit = false → parseUintLoop ds n = (0, some NumError.ErrSyntax)) := by
  induction ds with
  | nil =>
    intro n k hn _
    simp [hn]
  | cons c cs ih =>
    intro n k hn hk
    simp only [List.length_cons] at hk
    have h17 : (10 : Nat) ^ k ≤ 10 ^ 17 := Nat.pow_le_pow_right (by decide) (by omega)
    have hmax : maxUint64 = 18446744073709551615 := by decide
    cases hc : isDigit c
    · constructor
      · intro hall
        simp [hc] at hall
      · intro _
        rw [parseUintLoop]
        simp [hc]
    · have hd := digitVal_le hc
      have hn1 : n * 10 + digitVal c < 10 ^ (k + 1) := by
        rw [Nat.pow_succ]
        omega
      obtain ⟨i1, i2⟩ := ih (n * 10 + digitVal c) (k + 1) hn1 (by omega)
      have e : k + 1 + cs.length = k + (cs.length + 1) := by omega
      constructor
      · intro hall
        simp only [List.all_cons, hc, Bool.true_and] at hall
        simp only [List.foldl_cons, List.length_cons]
        rw [← e]
        exact i1 hall
      · intro hall
        simp only [List.all_cons, hc, Bool.true_and] at hall
        rw [parseUintLoop]
        have c1 : ¬ (maxUint64 / 10 + 1 ≤ n) := by
          rw [hmax]
          norm_num at h17 ⊢
          omega
        have h18 : (10 : Nat) ^ (k + 1) ≤ 10 ^ 18 := Nat.pow_le_pow_right (by decide) (by omega)
        have c2 : ¬ (maxUint64 < n * 10 + digitVal c) := by
          rw [hmax]
          norm_num at h18 ⊢
          omega
        simp only [hc, Bool.not_true, Bool.false_eq_true, if_false, c1, c2]
        exact i2 hall


/-- The value and the error of `ParseInt` are related as follows: no error and a
value within `int`, a syntax error and 0, or a range error and a bound of `int`. -/
theorem ParseInt_cases (s : List Char) :
    fitsInt (ParseInt s).1 ∧
    ((ParseInt s).2 = some .ErrSyntax → (ParseInt s).1 = 0) ∧
    ((ParseInt s).2 = some .ErrRange →
      (ParseInt s).1 = 2 ^ 63 - 1 ∨ (ParseInt s).1 = -(2 ^ 63)) := by
  unfold ParseInt fitsInt
  by_cases he : s.isEmpty = true
  · simp [he]
  · simp only [he, if_false, Bool.false_eq_true]
    generalize (s.head? == some '-') = neg
    generalize ParseUint (if (s.head? == some '+' || neg) = true then s.tail else s) = r
    obtain ⟨un, e⟩ := r
    rcases e with _ | _ | _
    · cases neg
      · by_cases h2 : 9223372036854775808 ≤ un
        · simp [h2]
        · simp [h2]
          omega
      · by_cases h3 : 9223372036854775808 < un
        · simp [h3]
        · simp [h3]
          omega
    · simp
    · cases neg
      · by_cases h2 : 9223372036854775808 ≤ un
        · simp [h2]
        · simp [h2]
          omega
      · by_cases h3 : 9223372036854775808 < un
        · simp [h3]
        · simp [h3]
          omega

/-- The fast path of `Atoi` returns what `ParseInt` returns. -/
theorem Atoi_eq_ParseInt (s : String) : Atoi s = ParseInt s.data := by
  unfold Atoi
  by_cases hfast : 0 < s.utf8ByteSize ∧ s.utf8ByteSize < 19
  · rw [if_pos hfast]
    have hlen : s.data.length ≤ 18 := by
      have := utf8ByteSize_ge_length s
      omega
    have hne : s.data.isEmpty = false := by
      cases hs : s.data with
      | nil =>
        have h0 : s.utf8ByteSize = 0 := by
          cases s with
          | mk cs =>
            simp only at hs
            rw [hs]
            rfl
        omega
      | cons c cs => rfl
    unfold ParseInt
    simp only [hne, if_false, Bool.false_eq_true]
    rw [Bool.or_comm (s.data.head? == some '+') (s.data.head? == some '-')]
    have hds : ∀ b : Bool, (if b = true then s.data.tail else s.data).length ≤ 18 := by
      intro b
      cases b
      · simpa using hlen
      · simp only [if_true, List.length_tail]
        omega
    generalize (s.data.head? == some '-') = neg at *
    have hdl := hds (neg || s.data.head? == some '+')
    generalize (if (neg || s.data.head? == some '+') = true then s.data.tail else s.data) = ds
      at *
    cases hde : ds.isEmpty
    · cases hall : ds.all isDigit
      · have hl := (parseUintLoop_small ds 0 0 (by decide) (by omega)).2 hall
        simp [ParseUint, hde, hl]
      · have hlt := (parseUintLoop_small ds 0 0 (by decide) (by omega)).1 hall
        have h18 : (10 : Nat) ^ (0 + ds.length) ≤ 10 ^ 18 :=
          Nat.pow_le_pow_right (by decide) (by omega)
        have hmax : maxUint64 = 18446744073709551615 := by decide
        have hacc : accumulate ds < 10 ^ 18 := Nat.lt_of_lt_of_le hlt h18
        have hl := parseUintLoop_digits ds 0 hall (by
          rw [hmax]
          have := hacc
          unfold accumulate at this
          norm_num at this ⊢
          omega)
        have hb : accumulate ds < 9223372036854775808 := by
          norm_num at hacc ⊢
          omega
        have hl1 : parseUintLoop ds 0 = (accumulate ds, none) := hl
        have n1 : ¬ (9223372036854775808 ≤ accumulate ds) := by omega
        have n2 : ¬ (9223372036854775808 < accumulate ds) := by omega
        cases neg <;> simp [ParseUint, hde, hl1, n1, n2]
    · simp [ParseUint, hde]
  · rw [if_neg hfast]


theorem ParseUint_digits (ds : List Char) (hne : ds ≠ []) (hall : ds.all isDigit = true)
    (hle : accumulate ds ≤ maxUint64) : ParseUint ds = (accumulate ds, none) := by
  have he : ds.isEmpty = false := by
    cases ds with
    | nil => exact absurd rfl hne
    | cons c cs => rfl
  simp only [ParseUint, he, if_false, Bool.false_eq_true]
  exact parseUintLoop_digits ds 0 hall hle

/-- On a string of digits that writes a number below `2 ^ 63`, `Atoi` returns that
number and no error. -/
theorem Atoi_decimal (tok : String) (h : isDecimal tok) (hlt : decimalValue tok < 2 ^ 63) :
    Atoi tok = ((decimalValue tok : Int), none) := by
  obtain ⟨hne, hall⟩ := h
  have hacc : accumulate tok.data = decimalValue tok := accumulate_eq_ofDigits tok.data
  have hmax : maxUint64 = 18446744073709551615 := by decide
  have hpu := ParseUint_digits tok.data hne hall (by rw [hmax]; omega)
  obtain ⟨c, cs, hcs⟩ : ∃ c cs, tok.data = c :: cs := by
    cases hd : tok.data with
    | nil => exact absurd hd hne
    | cons c cs => exact ⟨c, cs, rfl⟩
  have hc : isDigit c = true := by
    rw [hcs] at hall
    simp only [List.all_cons, Bool.and_eq_true] at hall
    exact hall.1
  obtain ⟨hp, hm⟩ := isDigit_ne_sign hc
  have hnot : ¬ (9223372036854775808 ≤ accumulate tok.data) := by omega
  rw [Atoi_eq_ParseInt]
  unfold ParseInt
  rw [hcs] at hpu hacc hnot ⊢
  simp [hp, hm, hpu, hnot, hacc]
  omega


/-- The value and the error of `Atoi` are related as `ParseInt` leaves them: no error
and a value within `int`, a syntax error and 0, or a range error and a bound. -/
theorem Atoi_cases (s : String) :
    fitsInt (Atoi s).1 ∧
    ((Atoi s).2 = some .ErrSyntax → (Atoi s).1 = 0) ∧
    ((Atoi s).2 = some .ErrRange → (Atoi s).1 = 2 ^ 63 - 1 ∨ (Atoi s).1 = -(2 ^ 63)) := by
  rw [Atoi_eq_ParseInt]
  exact ParseInt_cases s.data

/-- On the decimal representation of an integer that fits `int`, `Atoi` returns that
integer and no error. -/
theorem Atoi_writes (tok : String) (v : Int) (h : writes tok v) (hv : fitsInt v) :
    Atoi tok = (v, none) := by
  obtain ⟨hlo, hhi⟩ := hv
  rcases h with ⟨hd, rfl⟩ | ⟨ds, htok, hd, rfl⟩
  · exact Atoi_decimal tok hd (by omega)
  · obtain ⟨hne, hall⟩ := hd
    have hacc : accumulate ds.data = decimalValue ds := accumulate_eq_ofDigits ds.data
    have hmax : maxUint64 = 18446744073709551615 := by decide
    have hpu := ParseUint_digits ds.data hne hall (by rw [hmax]; omega)
    have hle : ¬ (9223372036854775808 < accumulate ds.data) := by omega
    rw [Atoi_eq_ParseInt]
    unfold ParseInt
    simp only [htok, List.head?_cons, List.tail_cons]
    simp [hpu, hle, hacc]
    omega

theorem wrapUnsigned_of_lt (w : Nat) (n : Nat) (h : n < 2 ^ w) :
    wrapUnsigned w (n : Int) = n := by
  unfold wrapUnsigned
  apply Int.emod_eq_of_lt (by omega)
  exact_mod_cast h

/-! ## Lemmas on the loop body -/

/-- A field that is not settable is skipped. -/
theorem bindField_not_settable (c : contextImpl) (f : StructField) (hs : f.CanSet = false) :
    bindField c f = .next f := by
  simp [bindField, hs]

/-- Positional annotation, index at or beyond the number of arguments. -/
theorem bindField_arg_missing (c : contextImpl) (f : StructField) (a : cmdArg)
    (hs : f.CanSet = true) (ha : cmdArgFromTagStr (f.Tag.Get "arg") = some a)
    (hi : (c.args.length : Int) ≤ a.index) :
    bindField c f = if a.isOptional then .next f else .ret (notEnoughArgs f.Name) := by
  cases ho : a.isOptional <;> simp [bindField, hs, ha, hi, ho]

/-- Positional annotation, negative index: the access `c.args[index]` panics. -/
theorem bindField_arg_negative (c : contextImpl) (f : StructField) (a : cmdArg)
    (hs : f.CanSet = true) (ha : cmdArgFromTagStr (f.Tag.Get "arg") = some a)
    (hi : a.index < 0) :
    bindField c f = .panic .indexOutOfRange := by
  have : ¬ ((c.args.length : Int) ≤ a.index) := by omega
  simp [bindField, hs, ha, hi, this]

/-- Positional annotation, index within range: the token is coerced and assigned. -/
theorem bindField_arg_found (c : contextImpl) (f : StructField) (a : cmdArg) (raw : String)
    (hs : f.CanSet = true) (ha : cmdArgFromTagStr (f.Tag.Get "arg") = some a)
    (h0 : 0 ≤ a.index) (hraw : c.args[a.index.toNat]? = some raw) :
    bindField c f =
      match findType raw f.Typ f.val with
      | some foundType =>
        match f.Set foundType with
        | .ok f1 => .next f1
        | .error p => .panic p
      | none => .next f := by
  have hlt : a.index.toNat < c.args.length := by
    rcases Nat.lt_or_ge a.index.toNat c.args.length with h | h
    · exact h
    · rw [List.getElem?_eq_none h] at hraw
      cases hraw
  have h1 : ¬ ((c.args.length : Int) ≤ a.index) := by omega
  have h2 : ¬ (a.index < 0) := by omega
  simp only [bindField, hs, ha, h1, h2, hraw, if_true, if_false]

/-- No positional descriptor, flag annotation present: the flag store is asked. -/
theorem bindField_flag (c : contextImpl) (f : StructField)
    (hs : f.CanSet = true) (ha : cmdArgFromTagStr (f.Tag.Get "arg") = none)
    (hf : f.Tag.Get "flag" ≠ "") :
    bindField c f =
      match findFlagType c (f.Tag.Get "flag") f.Typ with
      | .error p => .panic p
      | .ok (some val) =>
        match f.Set val with
        | .ok f1 => .next f1
        | .error p => .panic p
      | .ok none => .next f := by
  simp only [bindField, hs, ha, cmdFlagFromTagStr, hf, if_true, ne_eq, not_false_eq_true]

/-- Neither descriptor: the field is skipped. -/
theorem bindField_untagged (c : contextImpl) (f : StructField)
    (ha : cmdArgFromTagStr (f.Tag.Get "arg") = none) (hf : f.Tag.Get "flag" = "") :
    bindField c f = .next f := by
  cases hs : f.CanSet <;> simp [bindField, hs, ha, cmdFlagFromTagStr, hf]

/-- A pointer field that holds nil is stripped to the invalid value: nothing is found. -/
theorem findType_nil_ptr (raw : String) (t : GoType) (d : GoValue)
    (ht : t.Kind = .Ptr) (hd : ∀ x, d ≠ .ref x) : findType raw t d = none := by
  have hsp : stripPtr t d = none := by
    cases d <;> simp_all [stripPtr]
  simp [findType, hsp, Value.Kind]

/-! ## Lemmas on the loop -/

theorem bindFields_next {c : contextImpl} {f f1 : StructField} (fs : List StructField)
    (h : bindField c f = .next f1) :
    bindFields c (f :: fs) = (f1 :: (bindFields c fs).1, (bindFields c fs).2) := by
  simp [bindFields, h]

theorem bindFields_ret {c : contextImpl} {f : StructField} {msg : String}
    (fs : List StructField) (h : bindField c f = .ret msg) :
    bindFields c (f :: fs) = (f :: fs, .error msg) := by
  simp [bindFields, h]

theorem bindFields_panic {c : contextImpl} {f : StructField} {p : Panic}
    (fs : List StructField) (h : bindField c f = .panic p) :
    bindFields c (f :: fs) = (f :: fs, .panic p) := by
  simp [bindFields, h]

theorem Bind_structPtr (c : contextImpl) (fields : List StructField) :
    Bind c (structPtr fields) =
      { ctx := c, target := structPtr (bindFields c fields).1, out := (bindFields c fields).2 } := by
  have hs : isStructPtr (.pointer (some (.struct fields))) = true := rfl
  simp [Bind, hs, structPtr]

/-- The loop body returns an error exactly for a settable field whose positional
annotation parses, is not optional and has an index at or beyond the number of
arguments, and the error names that field. -/
theorem bindField_ret_iff (c : contextImpl) (f : StructField) (msg : String) :
    bindField c f = .ret msg ↔ requiredMissing c f = true ∧ msg = notEnoughArgs f.Name := by
  cases hs : f.CanSet
  · simp [bindField_not_settable c f hs, requiredMissing, hs]
  · cases ha : cmdArgFromTagStr (f.Tag.Get "arg") with
    | none =>
      have hr : requiredMissing c f = false := by simp [requiredMissing, ha]
      by_cases hf : f.Tag.Get "flag" = ""
      · simp [bindField_untagged c f ha hf, hr]
      · rw [bindField_flag c f hs ha hf, hr]
        split
        · simp
        · split <;> simp
        · simp
    | some a =>
      by_cases hi : (c.args.length : Int) ≤ a.index
      · rw [bindField_arg_missing c f a hs ha hi]
        cases ho : a.isOptional <;> simp [requiredMissing, hs, ha, hi, ho, eq_comm]
      · have hr : requiredMissing c f = false := by simp [requiredMissing, ha, hi]
        by_cases hn : a.index < 0
        · simp [bindField_arg_negative c f a hs ha hn, hr]
        · have hlt : a.index.toNat < c.args.length := by omega
          rw [bindField_arg_found c f a c.args[a.index.toNat] hs ha (by omega)
            (List.getElem?_eq_getElem hlt), hr]
          split
          · split <;> simp
          · simp

theorem bindFields_append_nil (c : contextImpl) (xs ys : List StructField)
    (h : (bindFields c xs).2 = .nil) :
    bindFields c (xs ++ ys) =
      ((bindFields c xs).1 ++ (bindFields c ys).1, (bindFields c ys).2) := by
  induction xs with
  | nil => simp [bindFields]
  | cons x xs ih =>
    cases hx : bindField c x with
    | next x1 =>
      rw [bindFields_next _ hx] at h
      rw [List.cons_append, bindFields_next _ hx, bindFields_next _ hx, ih h]
      rfl
    | ret msg => rw [bindFields_ret _ hx] at h; cases h
    | panic p => rw [bindFields_panic _ hx] at h; cases h

/-- When the loop does not run to its end, it stopped at one field `F`: the fields
before `F` each took their step, `F` and the fields after it are as they were. -/
theorem bindFields_stop (c : contextImpl) (fields : List StructField)
    (h : (bindFields c fields).2 ≠ .nil) :
    ∃ pre pre1 F post, fields = pre ++ F :: post ∧
      List.Forall₂ (fun p p1 => bindField c p = .next p1) pre pre1 ∧
      (bindFields c fields).1 = pre1 ++ F :: post ∧
      ((∃ msg, bindField c F = .ret msg ∧ (bindFields c fields).2 = .error msg) ∨
        (∃ p, bindField c F = .panic p ∧ (bindFields c fields).2 = .panic p)) := by
  induction fields with
  | nil => exact absurd rfl h
  | cons x xs ih =>
    cases hx : bindField c x with
    | next x1 =>
      rw [bindFields_next _ hx] at h ⊢
      obtain ⟨pre, pre1, F, post, hxs, hall, hres, hF⟩ := ih h
      exact ⟨x :: pre, x1 :: pre1, F, post, by rw [hxs]; rfl, List.Forall₂.cons hx hall,
        by simp only [hres]; rfl, hF⟩
    | ret msg =>
      rw [bindFields_ret _ hx]
      exact ⟨[], [], x, xs, rfl, List.Forall₂.nil, rfl, Or.inl ⟨msg, hx, rfl⟩⟩
    | panic p =>
      rw [bindFields_panic _ hx]
      exact ⟨[], [], x, xs, rfl, List.Forall₂.nil, rfl, Or.inr ⟨p, hx, rfl⟩⟩

/-- When the loop runs to its end, every field took its step. -/
theorem bindFields_nil (c : contextImpl) (fields : List StructField)
    (h : (bindFields c fields).2 = .nil) :
    List.Forall₂ (fun p p1 => bindField c p = .next p1) fields (bindFields c fields).1 := by
  induction fields with
  | nil => exact List.Forall₂.nil
  | cons x xs ih =>
    cases hx : bindField c x with
    | next x1 =>
      rw [bindFields_next _ hx] at h ⊢
      exact List.Forall₂.cons hx (ih h)
    | ret msg => rw [bindFields_ret _ hx] at h; cases h
    | panic p => rw [bindFields_panic _ hx] at h; cases h

/-- A field with a missing required argument makes the loop stop: with an error, or
earlier with a panic. -/
theorem bindFields_of_requiredMissing (c : contextImpl) (fields : List StructField)
    (f : StructField) (hf : f ∈ fields) (hr : requiredMissing c f = true) :
    (bindFields c fields).2 ≠ .nil := by
  induction fields with
  | nil => cases hf
  | cons x xs ih =>
    cases hx : bindField c x with
    | next x1 =>
      rw [bindFields_next _ hx]
      rcases List.mem_cons.mp hf with rfl | hmem
      · rw [((bindField_ret_iff c f _).mpr ⟨hr, rfl⟩)] at hx
        cases hx
      · exact ih hmem
    | ret msg => rw [bindFields_ret _ hx]; simp
    | panic p => rw [bindFields_panic _ hx]; simp

/-- Every field of a list whose fields all took their step took its step. -/
theorem next_of_mem_forall₂ (c : contextImpl) {pre pre1 : List StructField}
    (hall : List.Forall₂ (fun p p1 => bindField c p = .next p1) pre pre1)
    {g : StructField} (hg : g ∈ pre) : ∃ g1, bindField c g = .next g1 := by
  induction hall with
  | nil => cases hg
  | cons hab _ ih =>
    rcases List.mem_cons.mp hg with rfl | hmem
    · exact ⟨_, hab⟩
    · exact ih hmem

/-! ## C1: the payload of the tests -/

/-- C1, as stated, fails: the token `9223372036854775808` is a decimal number in the
range of `uint` (it writes `2 ^ 63 < 2 ^ 64`), yet `Bind` on a fresh payload with the
arguments `hello 9223372036854775808` leaves `Id = 9223372036854775807`, the bound at
which `Atoi` saturates, not the number written. -/
theorem C1_counterexample :
    isDecimal "9223372036854775808" ∧
    decimalValue "9223372036854775808" = 2 ^ 63 ∧
    decimalValue "9223372036854775808" < 2 ^ 64 ∧
    Bind (NewContext (some (baseCmd "dev" true ["1", "2", "3"]))
        ["hello", "9223372036854775808"]) (structPtr newPayload) =
      { ctx := NewContext (some (baseCmd "dev" true ["1", "2", "3"]))
          ["hello", "9223372036854775808"]
        target := structPtr (myCmdPayload (.string "hello") (.int 9223372036854775807) .nil
          (.string "dev") (.strings ["1", "2", "3"]) (.bool true))
        out := .nil } := by
  decide

/-- C1, amended: for the payload of the tests, every argument list of length at least 2
whose second token is a decimal number below `2 ^ 63`, and every setting of the flags
`env`, `boolean` and `string_slice`, `Bind` on a fresh payload returns no error, leaves
the context as it was, and yields `Username = args[0]`, `Id` = the number written in
`args[1]`, `Env`, `Boolean`, `StringSlice` = the current values of the flags, and
`Height = nil`, whether or not a third argument is present. -/
theorem C1_bind_test_payload (a0 tok : String) (rest : List String) (env : String)
    (b : Bool) (ss : List String) (h : isDecimal tok) (hlt : decimalValue tok < 2 ^ 63) :
    Bind (NewContext (some (baseCmd env b ss)) (a0 :: tok :: rest)) (structPtr newPayload) =
      { ctx := NewContext (some (baseCmd env b ss)) (a0 :: tok :: rest)
        target := structPtr (myCmdPayload (.string a0) (.int (decimalValue tok)) .nil
          (.string env) (.strings ss) (.bool b))
        out := .nil } := by
  have hA := Atoi_decimal tok h hlt
  have hw : wrapUnsigned 64 (decimalValue tok : Int) = decimalValue tok :=
    wrapUnsigned_of_lt 64 _ (by omega)
  have t0 : cmdArgFromTagStr "0" = some ⟨0, false⟩ := by decide
  have t1 : cmdArgFromTagStr "1" = some ⟨1, false⟩ := by decide
  have t2 : cmdArgFromTagStr "2,optional" = some ⟨2, true⟩ := by decide
  have te : cmdArgFromTagStr "" = none := by decide
  generalize hc : NewContext (some (baseCmd env b ss)) (a0 :: tok :: rest) = c
  have hargs : c.args = a0 :: tok :: rest := by rw [← hc]; rfl
  have hcmd : c.GetCommand = some (baseCmd env b ss) := by rw [← hc]; rfl
  have h1 : bindField c ⟨"Username", "", .string, [("arg", "0")], .string ""⟩ =
      .next ⟨"Username", "", .string, [("arg", "0")], .string a0⟩ := by
    rw [bindField_arg_found c ⟨"Username", "", .string, [("arg", "0")], .string ""⟩ ⟨0, false⟩ a0 rfl t0 (by decide) (by simp [hargs])]
    rfl
  have h2 : bindField c ⟨"Id", "", .uint, [("arg", "1")], .int 0⟩ =
      .next ⟨"Id", "", .uint, [("arg", "1")], .int (decimalValue tok)⟩ := by
    rw [bindField_arg_found c ⟨"Id", "", .uint, [("arg", "1")], .int 0⟩ ⟨1, false⟩ tok rfl t1 (by decide) (by simp [hargs])]
    simp [findType, stripPtr, GoType.Kind, Value.Kind, StructField.Set, GoType.assignable,
      hA, hw]
  have h3 : bindField c ⟨"Height", "", .ptr .int, [("arg", "2,optional")], .nil⟩ =
      .next ⟨"Height", "", .ptr .int, [("arg", "2,optional")], .nil⟩ := by
    cases rest with
    | nil =>
      rw [bindField_arg_missing c ⟨"Height", "", .ptr .int, [("arg", "2,optional")], .nil⟩ ⟨2, true⟩ rfl t2 (by simp [hargs])]
      rfl
    | cons r rs =>
      rw [bindField_arg_found c ⟨"Height", "", .ptr .int, [("arg", "2,optional")], .nil⟩ ⟨2, true⟩ r rfl t2 (by decide) (by simp [hargs])]
      rw [findType_nil_ptr r (.ptr .int) .nil rfl (by simp)]
  have h4 : bindField c ⟨"Env", "", .string, [("flag", "env")], .string ""⟩ =
      .next ⟨"Env", "", .string, [("flag", "env")], .string env⟩ := by
    rw [bindField_flag c ⟨"Env", "", .string, [("flag", "env")], .string ""⟩ rfl te (by decide)]
    simp [findFlagType, GoType.Kind, hcmd]
    rfl
  have h5 : bindField c ⟨"StringSlice", "", .slice .string, [("flag", "string_slice")], .nil⟩ =
      .next ⟨"StringSlice", "", .slice .string, [("flag", "string_slice")], .strings ss⟩ := by
    rw [bindField_flag c ⟨"StringSlice", "", .slice .string, [("flag", "string_slice")], .nil⟩ rfl te (by decide)]
    simp [findFlagType, findSliceFlagType, GoType.Kind, GoType.Elem, GoType.underlying, hcmd]
    rfl
  have h6 : bindField c ⟨"Boolean", "", .bool, [("flag", "boolean")], .bool false⟩ =
      .next ⟨"Boolean", "", .bool, [("flag", "boolean")], .bool b⟩ := by
    rw [bindField_flag c ⟨"Boolean", "", .bool, [("flag", "boolean")], .bool false⟩ rfl te (by decide)]
    simp [findFlagType, GoType.Kind, hcmd]
    rfl
  rw [Bind_structPtr]
  simp only [newPayload, myCmdPayload]
  rw [bindFields_next _ h1, bindFields_next _ h2, bindFields_next _ h3, bindFields_next _ h4,
    bindFields_next _ h5, bindFields_next _ h6]
  rfl

/-- Witness of C1: the arguments `hello 2 3` of `TestNewContextFromData`. -/
theorem C1_bind_test_payload_witness :
    (isDecimal "2" ∧ decimalValue "2" < 2 ^ 63) ∧
    Bind (NewContext (some (baseCmd "dev" true ["1", "2", "3"])) ["hello", "2", "3"])
        (structPtr newPayload) =
      { ctx := NewContext (some (baseCmd "dev" true ["1", "2", "3"])) ["hello", "2", "3"]
        target := structPtr (myCmdPayload (.string "hello") (.int (decimalValue "2")) .nil
          (.string "dev") (.strings ["1", "2", "3"]) (.bool true))
        out := .nil } :=
  ⟨by decide, C1_bind_test_payload "hello" "2" ["3"] "dev" true ["1", "2", "3"]
    (by decide) (by decide)⟩

/-! ## C2: when `Bind` returns an error -/

/-- C2, as stated, fails: with the arguments `hello 2 3` and a payload whose `Height`
already points to an `int`, every parsed index is non-negative and no required
positional argument is missing, yet `Bind` does not return success: `findType` hands
back an `int` and `Set` on the `*int` field panics. -/
theorem C2_counterexample :
    (myCmdPayload (.string "") (.int 0) (.ref (.int 180)) (.string "") .nil
        (.bool false)).all nonNegIndex = true ∧
    (myCmdPayload (.string "") (.int 0) (.ref (.int 180)) (.string "") .nil
        (.bool false)).any (requiredMissing (NewContext (some testCmd) ["hello", "2", "3"]))
      = false ∧
    (Bind (NewContext (some testCmd) ["hello", "2", "3"])
        (structPtr (myCmdPayload (.string "") (.int 0) (.ref (.int 180)) (.string "") .nil
          (.bool false)))).out = .panic .notAssignable := by
  decide

/-- C2, amended: for every context and every pointer to a struct on which `Bind` does
not panic, `Bind` returns an error if and only if some settable field carries a
positional annotation that parses, is not marked optional, and has an index at or
beyond the number of positional arguments; in every other case it returns success. -/
theorem C2_error_iff_required_missing (c : contextImpl) (fields : List StructField)
    (hp : ∀ p, (Bind c (structPtr fields)).out ≠ .panic p) :
    ((∃ msg, (Bind c (structPtr fields)).out = .error msg) ↔
      ∃ f ∈ fields, requiredMissing c f = true) ∧
    ((¬ ∃ f ∈ fields, requiredMissing c f = true) →
      (Bind c (structPtr fields)).out = .nil) := by
  rw [Bind_structPtr] at hp ⊢
  simp only at hp ⊢
  have key : (∃ f ∈ fields, requiredMissing c f = true) → ∃ msg, (bindFields c fields).2 = .error msg := by
    rintro ⟨f, hf, hr⟩
    cases ho : (bindFields c fields).2 with
    | nil => exact absurd ho (bindFields_of_requiredMissing c fields f hf hr)
    | error msg => exact ⟨msg, rfl⟩
    | panic p => exact absurd ho (hp p)
  have back : (∃ msg, (bindFields c fields).2 = .error msg) →
      ∃ f ∈ fields, requiredMissing c f = true := by
    rintro ⟨msg, hm⟩
    obtain ⟨pre, pre1, F, post, hfs, -, -, hF⟩ := bindFields_stop c fields (by rw [hm]; simp)
    rcases hF with ⟨m, hret, -⟩ | ⟨p, -, hpan⟩
    · exact ⟨F, by rw [hfs]; simp, ((bindField_ret_iff c F m).mp hret).1⟩
    · rw [hm] at hpan; cases hpan
  refine ⟨⟨back, key⟩, fun hno => ?_⟩
  cases ho : (bindFields c fields).2 with
  | nil => rfl
  | error msg => exact absurd (back ⟨msg, ho⟩) hno
  | panic p => exact absurd ho (hp p)

/-- Witness of C2: scenario 3, where `Height` is required and the arguments are
`hello 2`. -/
theorem C2_error_iff_required_missing_witness :
    (∀ p, (Bind (NewContext (some testCmd) ["hello", "2"])
        (structPtr (requiredPayload (.string "") (.int 0) .nil (.string "") .nil
          (.bool false)))).out ≠ .panic p) ∧
    (((∃ msg, (Bind (NewContext (some testCmd) ["hello", "2"])
        (structPtr (requiredPayload (.string "") (.int 0) .nil (.string "") .nil
          (.bool false)))).out = .error msg) ↔
      ∃ f ∈ requiredPayload (.string "") (.int 0) .nil (.string "") .nil (.bool false),
        requiredMissing (NewContext (some testCmd) ["hello", "2"]) f = true) ∧
    ((¬ ∃ f ∈ requiredPayload (.string "") (.int 0) .nil (.string "") .nil (.bool false),
        requiredMissing (NewContext (some testCmd) ["hello", "2"]) f = true) →
      (Bind (NewContext (some testCmd) ["hello", "2"])
        (structPtr (requiredPayload (.string "") (.int 0) .nil (.string "") .nil
          (.bool false)))).out = .nil)) :=
  have hp : ∀ p, (Bind (NewContext (some testCmd) ["hello", "2"])
      (structPtr (requiredPayload (.string "") (.int 0) .nil (.string "") .nil
        (.bool false)))).out ≠ .panic p := by
    intro p h
    have e : (Bind (NewContext (some testCmd) ["hello", "2"])
        (structPtr (requiredPayload (.string "") (.int 0) .nil (.string "") .nil
          (.bool false)))).out = .error "not enough args, height is required" := by decide
    rw [e] at h
    cases h
  ⟨hp, C2_error_iff_required_missing _ _ hp⟩

/-! ## C3: the text of the error -/

/-- C3: when `Bind` returns an error, its text is exactly
`not enough args, <field> is required`, where `<field>` is the lower-cased name of the
first field, in declaration order, that is settable and whose positional annotation
parses, is not optional and has an index at or beyond the number of arguments. -/
theorem C3_error_text (c : contextImpl) (fields : List StructField) (msg : String)
    (h : (Bind c (structPtr fields)).out = .error msg) :
    ∃ pre F post, fields = pre ++ F :: post ∧
      (∀ g ∈ pre, requiredMissing c g = false) ∧
      requiredMissing c F = true ∧
      msg = "not enough args, " ++ ToLower F.Name ++ " is required" := by
  rw [Bind_structPtr] at h
  simp only at h
  obtain ⟨pre, pre1, F, post, hfs, hall, -, hF⟩ := bindFields_stop c fields (by rw [h]; simp)
  refine ⟨pre, F, post, hfs, ?_, ?_⟩
  · intro g hg
    obtain ⟨g1, hg1⟩ := next_of_mem_forall₂ c hall hg
    cases hr : requiredMissing c g with
    | false => rfl
    | true =>
      rw [(bindField_ret_iff c g _).mpr ⟨hr, rfl⟩] at hg1
      cases hg1
  · rcases hF with ⟨m, hret, hout⟩ | ⟨p, -, hpan⟩
    · rw [h] at hout
      cases hout
      exact (bindField_ret_iff c F msg).mp hret
    · rw [h] at hpan; cases hpan

/-- Witness of C3: with `Height` annotated `arg:"2"` and the arguments `hello 2`, the
text names `height`; for a field named `Über` the text names `über`. -/
theorem C3_error_text_witness :
    (Bind (NewContext (some testCmd) ["hello", "2"])
        (structPtr (requiredPayload (.string "") (.int 0) .nil (.string "") .nil
          (.bool false)))).out = .error "not enough args, height is required" ∧
    (Bind (NewContext (some testCmd) [])
        (structPtr [⟨"Über", "", .string, [("arg", "0")], .string ""⟩])).out =
      .error "not enough args, über is required" ∧
    ∃ pre F post,
      requiredPayload (.string "") (.int 0) .nil (.string "") .nil (.bool false) =
        pre ++ F :: post ∧
      (∀ g ∈ pre, requiredMissing (NewContext (some testCmd) ["hello", "2"]) g = false) ∧
      requiredMissing (NewContext (some testCmd) ["hello", "2"]) F = true ∧
      "not enough args, height is required" =
        "not enough args, " ++ ToLower F.Name ++ " is required" :=
  ⟨by decide, by decide, C3_error_text _ _ _ (by decide)⟩

/-! ## C4: no rollback, no look-ahead -/

/-- C4: when `Bind` returns an error, it stopped at one field `F`: every field
declared before `F` holds what binding that field on its own (a struct with that
field only) assigns, and `F` and every field declared after `F` hold what they held
before the call. -/
theorem C4_no_rollback (c : contextImpl) (fields : List StructField) (msg : String)
    (h : (Bind c (structPtr fields)).out = .error msg) :
    ∃ pre pre1 F post, fields = pre ++ F :: post ∧
      bindField c F = .ret msg ∧
      List.Forall₂
        (fun p p1 => Bind c (structPtr [p]) = { ctx := c, target := structPtr [p1], out := .nil })
        pre pre1 ∧
      (Bind c (structPtr fields)).target = structPtr (pre1 ++ F :: post) := by
  rw [Bind_structPtr] at h ⊢
  simp only at h ⊢
  obtain ⟨pre, pre1, F, post, hfs, hall, hres, hF⟩ := bindFields_stop c fields (by rw [h]; simp)
  refine ⟨pre, pre1, F, post, hfs, ?_, ?_, by rw [hres]⟩
  · rcases hF with ⟨m, hret, hout⟩ | ⟨p, -, hpan⟩
    · rw [h] at hout
      cases hout
      exact hret
    · rw [h] at hpan; cases hpan
  · refine hall.imp ?_
    intro p p1 hp
    rw [Bind_structPtr, bindFields_next _ hp]
    rfl

/-- Witness of C4: scenario 3, where `Username` and `Id` stay bound and `Height` and
the flag fields are as before. -/
theorem C4_no_rollback_witness :
    (Bind (NewContext (some testCmd) ["hello", "2"])
        (structPtr (requiredPayload (.string "") (.int 0) .nil (.string "") .nil
          (.bool false)))).out = .error "not enough args, height is required" ∧
    (Bind (NewContext (some testCmd) ["hello", "2"])
        (structPtr (requiredPayload (.string "") (.int 0) .nil (.string "") .nil
          (.bool false)))).target =
      structPtr (requiredPayload (.string "hello") (.int 2) .nil (.string "") .nil
        (.bool false)) ∧
    ∃ pre pre1 F post,
      requiredPayload (.string "") (.int 0) .nil (.string "") .nil (.bool false) =
        pre ++ F :: post ∧
      bindField (NewContext (some testCmd) ["hello", "2"]) F =
        .ret "not enough args, height is required" ∧
      List.Forall₂
        (fun p p1 => Bind (NewContext (some testCmd) ["hello", "2"]) (structPtr [p]) =
          { ctx := NewContext (some testCmd) ["hello", "2"], target := structPtr [p1],
            out := .nil })
        pre pre1 ∧
      (Bind (NewContext (some testCmd) ["hello", "2"])
        (structPtr (requiredPayload (.string "") (.int 0) .nil (.string "") .nil
          (.bool false)))).target = structPtr (pre1 ++ F :: post) :=
  ⟨by decide, by decide, C4_no_rollback _ _ _ (by decide)⟩

/-! ## C5: an optional positional argument that is absent -/

/-- C5: a settable field whose positional annotation is marked optional and whose
index is at or beyond the number of arguments is left as it was, stops the loop
neither with an error nor otherwise, and the fields declared after it are processed:
when the fields before it are bound without stopping, `Bind` ends the way the loop
over the fields after it ends. -/
theorem C5_optional_missing (c : contextImpl) (pre post : List StructField)
    (f : StructField) (a : cmdArg) (hs : f.CanSet = true)
    (ha : cmdArgFromTagStr (f.Tag.Get "arg") = some a) (ho : a.isOptional = true)
    (hi : (c.args.length : Int) ≤ a.index) (hpre : (bindFields c pre).2 = .nil) :
    bindField c f = .next f ∧
    Bind c (structPtr (pre ++ f :: post)) =
      { ctx := c
        target := structPtr ((bindFields c pre).1 ++ f :: (bindFields c post).1)
        out := (bindFields c post).2 } := by
  have hf : bindField c f = .next f := by
    rw [bindField_arg_missing c f a hs ha hi, ho]
    rfl
  refine ⟨hf, ?_⟩
  rw [Bind_structPtr, bindFields_append_nil c pre (f :: post) hpre, bindFields_next _ hf]

/-- Witness of C5: scenario 2, the arguments `hello 2` and the optional `Height`. -/
theorem C5_optional_missing_witness :
    bindField (NewContext (some testCmd) ["hello", "2"])
        ⟨"Height", "", .ptr .int, [("arg", "2,optional")], .nil⟩ =
      .next ⟨"Height", "", .ptr .int, [("arg", "2,optional")], .nil⟩ ∧
    Bind (NewContext (some testCmd) ["hello", "2"])
        (structPtr
          ([⟨"Username", "", .string, [("arg", "0")], .string ""⟩,
            ⟨"Id", "", .uint, [("arg", "1")], .int 0⟩] ++
           ⟨"Height", "", .ptr .int, [("arg", "2,optional")], .nil⟩ ::
           [⟨"Env", "", .string, [("flag", "env")], .string ""⟩])) =
      { ctx := NewContext (some testCmd) ["hello", "2"]
        target := structPtr
          ((bindFields (NewContext (some testCmd) ["hello", "2"])
              [⟨"Username", "", .string, [("arg", "0")], .string ""⟩,
               ⟨"Id", "", .uint, [("arg", "1")], .int 0⟩]).1 ++
            ⟨"Height", "", .ptr .int, [("arg", "2,optional")], .nil⟩ ::
            (bindFields (NewContext (some testCmd) ["hello", "2"])
              [⟨"Env", "", .string, [("flag", "env")], .string ""⟩]).1)
        out := (bindFields (NewContext (some testCmd) ["hello", "2"])
              [⟨"Env", "", .string, [("flag", "env")], .string ""⟩]).2 } :=
  C5_optional_missing (NewContext (some testCmd) ["hello", "2"])
    [⟨"Username", "", .string, [("arg", "0")], .string ""⟩,
     ⟨"Id", "", .uint, [("arg", "1")], .int 0⟩]
    [⟨"Env", "", .string, [("flag", "env")], .string ""⟩]
    ⟨"Height", "", .ptr .int, [("arg", "2,optional")], .nil⟩ ⟨2, true⟩
    (by decide) (by decide) (by decide) (by decide) (by decide)

/-! ## C6: pointer fields -/

/-- C6, as stated, fails: with the arguments `hello 2 3` the fresh payload ends with
`Height = nil`, not with a pointer to 3 (this is what `TestNewContextFromData`
expects). -/
theorem C6_counterexample :
    (Bind (NewContext (some testCmd) ["hello", "2", "3"]) (structPtr newPayload)).target =
      structPtr (myCmdPayload (.string "hello") (.int 2) .nil (.string "dev")
        (.strings ["1", "2", "3"]) (.bool true)) ∧
    (Bind (NewContext (some testCmd) ["hello", "2", "3"]) (structPtr newPayload)).target ≠
      structPtr (myCmdPayload (.string "hello") (.int 2) (.ref (.int 3)) (.string "dev")
        (.strings ["1", "2", "3"]) (.bool true)) := by
  decide

/-- C6, amended: a settable field of pointer type that is nil before the call and
carries a positional annotation whose index is within range is left nil, and the
loop goes on: `stripPtr` reaches the invalid value, for which `findType` finds
nothing. -/
theorem C6_nil_pointer_stays_nil (c : contextImpl) (f : StructField) (a : cmdArg)
    (raw : String) (hs : f.CanSet = true) (hk : f.Typ.Kind = .Ptr) (hv : f.val = .nil)
    (ha : cmdArgFromTagStr (f.Tag.Get "arg") = some a) (h0 : 0 ≤ a.index)
    (hraw : c.args[a.index.toNat]? = some raw) :
    bindField c f = .next f ∧
    Bind c (structPtr [f]) = { ctx := c, target := structPtr [f], out := .nil } := by
  have hf : bindField c f = .next f := by
    rw [bindField_arg_found c f a raw hs ha h0 hraw,
      findType_nil_ptr raw f.Typ f.val hk (by rw [hv]; simp)]
  refine ⟨hf, ?_⟩
  rw [Bind_structPtr, bindFields_next _ hf]
  rfl

/-- Witness of C6: the arguments `hello 2 3` and the field `Height`. -/
theorem C6_nil_pointer_stays_nil_witness :
    bindField (NewContext (some testCmd) ["hello", "2", "3"])
        ⟨"Height", "", .ptr .int, [("arg", "2,optional")], .nil⟩ =
      .next ⟨"Height", "", .ptr .int, [("arg", "2,optional")], .nil⟩ ∧
    Bind (NewContext (some testCmd) ["hello", "2", "3"])
        (structPtr [⟨"Height", "", .ptr .int, [("arg", "2,optional")], .nil⟩]) =
      { ctx := NewContext (some testCmd) ["hello", "2", "3"]
        target := structPtr [⟨"Height", "", .ptr .int, [("arg", "2,optional")], .nil⟩]
        out := .nil } :=
  C6_nil_pointer_stays_nil (NewContext (some testCmd) ["hello", "2", "3"])
    ⟨"Height", "", .ptr .int, [("arg", "2,optional")], .nil⟩ ⟨2, true⟩ "3"
    (by decide) (by decide) (by decide) (by decide) (by decide) (by decide)

/-! ## C7: the method `Error` -/

/-- `Bind` never assigns the field `error` of the context. -/
theorem Bind_ctx (c : contextImpl) (t : Arg) : (Bind c t).ctx = c := by
  unfold Bind
  split
  · rfl
  · split <;> rfl

/-- C7 fails on the code: in scenario 3 `Bind` returns the error
`not enough args, height is required`, and `Error()` on the same context still
returns nil afterwards; a context made by `NewContext` returns nil from `Error()`
after every call of `Bind`. -/
theorem C7_error_not_recorded :
    (Bind (NewContext (some testCmd) ["hello", "2"])
        (structPtr (requiredPayload (.string "") (.int 0) .nil (.string "") .nil
          (.bool false)))).out = .error "not enough args, height is required" ∧
    (Bind (NewContext (some testCmd) ["hello", "2"])
        (structPtr (requiredPayload (.string "") (.int 0) .nil (.string "") .nil
          (.bool false)))).ctx.Error = none ∧
    ∀ (cmd : Option Command) (args : List String) (t : Arg),
      (Bind (NewContext cmd args) t).ctx.Error = none := by
  refine ⟨by decide, by decide, ?_⟩
  intro cmd args t
  rw [Bind_ctx]
  rfl

/-! ## C8: flags that are not registered, field types without a getter -/

theorem findFlagType_unsupported (c : contextImpl) (flag : String) (t : GoType)
    (h : supportedFlagType t = false) : findFlagType c flag t = .ok none := by
  unfold supportedFlagType at h
  unfold findFlagType
  cases hk : t.Kind <;> simp only [hk] at h ⊢ <;> try cases h
  unfold findSliceFlagType
  cases he : t.Elem.Kind <;> simp only [he] at h ⊢ <;> cases h

theorem Lookup_none_getters (fs : FlagSet) (name : String) (h : fs.Lookup name = none) :
    (fs.GetString name).1 = "" ∧ (fs.GetInt name).1 = 0 ∧ (fs.GetBool name).1 = false ∧
    (fs.GetFloat32 name).1 = 0 ∧ (fs.GetFloat64 name).1 = 0 ∧
    (fs.GetStringSlice name).1 = [] ∧ (fs.GetIntSlice name).1 = [] ∧
    (fs.GetBoolSlice name).1 = [] := by
  simp [FlagSet.GetString, FlagSet.GetInt, FlagSet.GetBool, FlagSet.GetFloat32,
    FlagSet.GetFloat64, FlagSet.GetStringSlice, FlagSet.GetIntSlice, FlagSet.GetBoolSlice, h]

/-- C8, as stated, fails: a string field that holds `x` and is annotated with the
flag `nonexistent_flag`, which is not registered, holds `""` after `Bind`: the getter
returns `""` with its error, the error is dropped and the value assigned. -/
theorem C8_counterexample :
    testCmd.flags.Lookup "nonexistent_flag" = none ∧
    cmdArgFromTagStr (StructTag.Get [("flag", "nonexistent_flag")] "arg") = none ∧
    Bind (NewContext (some testCmd) [])
        (structPtr [⟨"Env", "", .string, [("flag", "nonexistent_flag")], .string "x"⟩]) =
      { ctx := NewContext (some testCmd) []
        target := structPtr [⟨"Env", "", .string, [("flag", "nonexistent_flag")], .string ""⟩]
        out := .nil } := by
  decide

/-- C8, amended: for a settable field with a flag annotation and no parseable
positional annotation, (1) when the field type is not a supported flag kind, `Bind`
leaves the field as it was and the loop goes on; (2) when the flag is not registered
in the flag store of the command and the field has one of the predeclared supported
types, `Bind` overwrites the field with the value the getter returns with its error
(the zero value, or an empty slice) and the loop goes on; no error is returned on
account of the field. -/
theorem C8_unregistered_or_unsupported (c : contextImpl) (f : StructField)
    (hs : f.CanSet = true) (ha : cmdArgFromTagStr (f.Tag.Get "arg") = none)
    (hf : f.Tag.Get "flag" ≠ "") :
    (supportedFlagType f.Typ = false → bindField c f = .next f) ∧
    (∀ cmd v, c.cmd = some cmd → cmd.flags.Lookup (f.Tag.Get "flag") = none →
      getterFallback f.Typ = some v → bindField c f = .next { f with val := v }) := by
  constructor
  · intro hu
    rw [bindField_flag c f hs ha hf, findFlagType_unsupported c _ _ hu]
  · intro cmd v hc hl hv
    obtain ⟨g1, g2, g3, g4, g5, g6, g7, g8⟩ := Lookup_none_getters cmd.flags _ hl
    have hcmd : c.GetCommand = some cmd := hc
    rw [bindField_flag c f hs ha hf]
    cases ht : f.Typ with
    | slice e =>
      rw [ht] at hv
      cases e <;> simp only [getterFallback] at hv <;> cases hv
      all_goals
        simp [findFlagType, findSliceFlagType, GoType.Kind, GoType.Elem, GoType.underlying,
          hcmd, StructField.Set, GoType.assignable, ht, g6, g7, g8]
    | string | int | bool | float32 | float64 =>
      rw [ht] at hv
      cases hv
      simp [findFlagType, GoType.Kind, hcmd, StructField.Set, GoType.assignable, ht,
        g1, g2, g3, g4, g5]
    | _ =>
      rw [ht] at hv
      simp [getterFallback] at hv

/-- Witness of C8: a field of a map type annotated with a flag is left as it was, and
the fresh string field of scenario 4, annotated with the flag `nonexistent_flag`, is
assigned `""`. -/
theorem C8_unregistered_or_unsupported_witness :
    bindField (NewContext (some testCmd) [])
        ⟨"Labels", "", .other "map[string]string", [("flag", "env")], .other 7⟩ =
      .next ⟨"Labels", "", .other "map[string]string", [("flag", "env")], .other 7⟩ ∧
    bindField (NewContext (some testCmd) [])
        ⟨"Env", "", .string, [("flag", "nonexistent_flag")], .string ""⟩ =
      .next ⟨"Env", "", .string, [("flag", "nonexistent_flag")], .string ""⟩ :=
  ⟨(C8_unregistered_or_unsupported (NewContext (some testCmd) [])
      ⟨"Labels", "", .other "map[string]string", [("flag", "env")], .other 7⟩
      (by decide) (by decide) (by decide)).1 (by decide),
   (C8_unregistered_or_unsupported (NewContext (some testCmd) [])
      ⟨"Env", "", .string, [("flag", "nonexistent_flag")], .string ""⟩
      (by decide) (by decide) (by decide)).2 testCmd (.string "") rfl (by decide) rfl⟩

/-! ## C9: registered flags of a supported type -/

/-- C9: for a settable field with a flag annotation and no parseable positional
annotation that names a registered flag whose type matches the field type, where
that type is `string`, `int`, `bool`, `float32`, `float64`, `[]string`, `[]int` or
`[]bool`, `Bind` assigns the current value of the flag to the field and the loop goes
on. -/
theorem C9_registered_flag (c : contextImpl) (cmd : Command) (f : StructField) (fl : Flag)
    (v : GoValue) (hs : f.CanSet = true) (ha : cmdArgFromTagStr (f.Tag.Get "arg") = none)
    (hf : f.Tag.Get "flag" ≠ "") (hc : c.cmd = some cmd)
    (hl : cmd.flags.Lookup (f.Tag.Get "flag") = some fl)
    (hm : matchingValue f.Typ fl.Value = some v) :
    bindField c f = .next { f with val := v } := by
  have hcmd : c.GetCommand = some cmd := hc
  rw [bindField_flag c f hs ha hf]
  obtain ⟨n, fv⟩ := fl
  cases ht : f.Typ with
  | slice e =>
    rw [ht] at hm
    cases e <;> cases fv <;> simp only [matchingValue] at hm <;> cases hm
    all_goals
      simp [findFlagType, findSliceFlagType, GoType.Kind, GoType.Elem, GoType.underlying,
        hcmd, StructField.Set, GoType.assignable, ht, FlagSet.GetStringSlice,
        FlagSet.GetIntSlice, FlagSet.GetBoolSlice, hl]
  | string | int | bool | float32 | float64 =>
    rw [ht] at hm
    cases fv <;> simp only [matchingValue] at hm <;> cases hm
    all_goals
      simp [findFlagType, GoType.Kind, hcmd, StructField.Set, GoType.assignable, ht,
        FlagSet.GetString, FlagSet.GetInt, FlagSet.GetBool, FlagSet.GetFloat32,
        FlagSet.GetFloat64, hl]
  | _ =>
    rw [ht] at hm
    cases fv <;> simp [matchingValue] at hm

/-- Witness of C9: the field `StringSlice` of the payload and the flag `string_slice`
of the tests. -/
theorem C9_registered_flag_witness :
    bindField (NewContext (some testCmd) ["hello", "2"])
        ⟨"StringSlice", "", .slice .string, [("flag", "string_slice")], .nil⟩ =
      .next ⟨"StringSlice", "", .slice .string, [("flag", "string_slice")],
        .strings ["1", "2", "3"]⟩ :=
  C9_registered_flag (NewContext (some testCmd) ["hello", "2"]) testCmd
    ⟨"StringSlice", "", .slice .string, [("flag", "string_slice")], .nil⟩
    ⟨"string_slice", .stringSlice ["1", "2", "3"]⟩ (.strings ["1", "2", "3"])
    (by decide) (by decide) (by decide) rfl (by decide) rfl

/-! ## C10: precedence of the positional annotation -/

/-- C10, as stated, fails: a field that carries the non-empty positional annotation
`abc`, which does not parse, and the flag annotation `env` is bound from the flag
store: it ends with the current value of the flag, `dev` with one store and `prod`
with another. -/
theorem C10_counterexample :
    StructTag.Get [("arg", "abc"), ("flag", "env")] "arg" ≠ "" ∧
    StructTag.Get [("arg", "abc"), ("flag", "env")] "flag" ≠ "" ∧
    Bind (NewContext (some (baseCmd "dev" false [])) ["x"])
        (structPtr [⟨"Env", "", .string, [("arg", "abc"), ("flag", "env")], .string ""⟩]) =
      { ctx := NewContext (some (baseCmd "dev" false [])) ["x"]
        target := structPtr
          [⟨"Env", "", .string, [("arg", "abc"), ("flag", "env")], .string "dev"⟩]
        out := .nil } ∧
    Bind (NewContext (some (baseCmd "prod" false [])) ["x"])
        (structPtr [⟨"Env", "", .string, [("arg", "abc"), ("flag", "env")], .string ""⟩]) =
      { ctx := NewContext (some (baseCmd "prod" false [])) ["x"]
        target := structPtr
          [⟨"Env", "", .string, [("arg", "abc"), ("flag", "env")], .string "prod"⟩]
        out := .nil } := by
  decide

/-- C10, amended: for a field whose positional annotation parses, what `Bind` does to
the field (the contents it leaves, or the error or panic it stops with) depends on the
positional arguments only: it is the same for any other flag annotation, or none, on
the field and for any other flag store, or a nil command. -/
theorem C10_positional_precedence (c c1 : contextImpl) (f g : StructField) (a : cmdArg)
    (ha : cmdArgFromTagStr (f.Tag.Get "arg") = some a) (hargs : c1.args = c.args)
    (hn : g.Name = f.Name) (hp : g.PkgPath = f.PkgPath) (ht : g.Typ = f.Typ)
    (hv : g.val = f.val) (hg : g.Tag.Get "arg" = f.Tag.Get "arg") :
    (bindField c1 g).observe = (bindField c f).observe := by
  have hag : cmdArgFromTagStr (g.Tag.Get "arg") = some a := by rw [hg, ha]
  cases hs : f.CanSet
  · have hsg : g.CanSet = false := by simpa [StructField.CanSet, hp] using hs
    rw [bindField_not_settable c f hs, bindField_not_settable c1 g hsg]
    simp [Step.observe, hv]
  · have hsg : g.CanSet = true := by simpa [StructField.CanSet, hp] using hs
    by_cases hi : (c.args.length : Int) ≤ a.index
    · rw [bindField_arg_missing c f a hs ha hi,
        bindField_arg_missing c1 g a hsg hag (by rw [hargs]; exact hi)]
      cases a.isOptional <;> simp [Step.observe, hv, hn]
    · by_cases hneg : a.index < 0
      · rw [bindField_arg_negative c f a hs ha hneg, bindField_arg_negative c1 g a hsg hag hneg]
      · have hlt : a.index.toNat < c.args.length := by omega
        have hraw : c.args[a.index.toNat]? = some c.args[a.index.toNat] :=
          List.getElem?_eq_getElem hlt
        rw [bindField_arg_found c f a _ hs ha (by omega) hraw,
          bindField_arg_found c1 g a _ hsg hag (by omega) (by rw [hargs]; exact hraw),
          ht, hv]
        cases findType c.args[a.index.toNat] f.Typ f.val with
        | none => simp [Step.observe, hv]
        | some x =>
          simp only [StructField.Set, ht]
          cases f.Typ.assignable x.typ <;> simp [Step.observe]

/-- Witness of C10: the field `Username` of the payload with the flag annotation `env`
added and the store of the tests, against the field as declared and a nil command. -/
theorem C10_positional_precedence_witness :
    (bindField (NewContext none ["hello", "2"])
        ⟨"Username", "", .string, [("arg", "0")], .string ""⟩).observe =
      (bindField (NewContext (some testCmd) ["hello", "2"])
        ⟨"Username", "", .string, [("arg", "0"), ("flag", "env")], .string ""⟩).observe ∧
    (bindField (NewContext (some testCmd) ["hello", "2"])
        ⟨"Username", "", .string, [("arg", "0"), ("flag", "env")], .string ""⟩).observe =
      .inl (.string "hello") :=
  ⟨C10_positional_precedence (NewContext (some testCmd) ["hello", "2"])
      (NewContext none ["hello", "2"])
      ⟨"Username", "", .string, [("arg", "0"), ("flag", "env")], .string ""⟩
      ⟨"Username", "", .string, [("arg", "0")], .string ""⟩ ⟨0, false⟩
      (by decide) rfl rfl rfl rfl rfl (by decide),
    by decide⟩

/-! ## Lemmas on the coercion of integers -/

theorem wrapSigned_eq_truncate (w : Nat) (hw : w = 8 ∨ w = 16 ∨ w = 32 ∨ w = 64) (n : Int) :
    wrapSigned w n = truncate true w n := by
  unfold wrapSigned truncate
  rcases hw with rfl | rfl | rfl | rfl <;> norm_num <;> split <;> omega

theorem wrapUnsigned_eq_truncate (w : Nat) (n : Int) :
    wrapUnsigned w n = truncate false w n := by
  simp [wrapUnsigned, truncate]

/-- A value that is representable in the type is left as it is by the conversion. -/
theorem truncate_of_representable (signed : Bool) (w : Nat)
    (hw : w = 8 ∨ w = 16 ∨ w = 32 ∨ w = 64) (v : Int) (h : representable signed w v) :
    truncate signed w v = v := by
  unfold representable at h
  unfold truncate
  cases signed <;> rcases hw with rfl | rfl | rfl | rfl <;> norm_num at h ⊢ <;>
    (try split) <;> omega


theorem stripPtr_of_not_ptr (t : GoType) (d : GoValue) (h : t.Kind ≠ .Ptr) :
    stripPtr t d = some ⟨t, d⟩ := by
  cases d <;> simp [stripPtr, h]

theorem intKind_width {t : GoType} {sg : Bool} {w : Nat} (h : intKind t = some (sg, w)) :
    w = 8 ∨ w = 16 ∨ w = 32 ∨ w = 64 := by
  cases t <;> simp [intKind] at h <;> omega

/-- For a field of an integer type, `findType` parses the token with `Atoi`, drops the
error, and converts the value to the type of the field. -/
theorem findType_int (raw : String) (t : GoType) (d : GoValue) (sg : Bool) (w : Nat)
    (h : intKind t = some (sg, w)) :
    findType raw t d = some ⟨t, .int (truncate sg w (Atoi raw).1)⟩ := by
  have h64 : truncate true 64 (Atoi raw).1 = (Atoi raw).1 :=
    truncate_of_representable true 64 (by simp) _ (by
      have := (Atoi_cases raw).1
      unfold fitsInt at this
      unfold representable
      simpa using this)
  cases t <;> simp [intKind] at h
  all_goals
    obtain ⟨rfl, rfl⟩ := h
    rw [findType, stripPtr_of_not_ptr _ _ (by simp [GoType.Kind])]
    simp [Value.Kind, GoType.Kind, h64, wrapSigned_eq_truncate, wrapUnsigned_eq_truncate]

/-- A settable field of an integer type with a positional annotation whose index is
within range is assigned the value of `Atoi` on the token, converted to its type. -/
theorem bindField_int (c : contextImpl) (f : StructField) (a : cmdArg) (raw : String)
    (sg : Bool) (w : Nat) (hs : f.CanSet = true)
    (ha : cmdArgFromTagStr (f.Tag.Get "arg") = some a) (h0 : 0 ≤ a.index)
    (hraw : c.args[a.index.toNat]? = some raw) (hk : intKind f.Typ = some (sg, w)) :
    bindField c f = .next { f with val := .int (truncate sg w (Atoi raw).1) } := by
  rw [bindField_arg_found c f a raw hs ha h0 hraw, findType_int raw f.Typ f.val sg w hk]
  simp [StructField.Set, GoType.assignable]

/-! ## C11: integer fields -/

/-- C11, as stated, fails in two ways. (1) `9223372036854775808` is the decimal
representation of `2 ^ 63`, which is representable in `uint64`, yet a `uint64` field
bound to that token holds `9223372036854775807`: `Atoi` parses an `int` and saturates.
(2) A field of the defined type `type Age int` has the kind `Int` and `5` is
representable in it, yet `Bind` panics: `Set` is given an `int`. -/
theorem C11_counterexample :
    (intKind .uint64 = some (false, 64) ∧
      writes "9223372036854775808" (2 ^ 63) ∧
      representable false 64 (2 ^ 63) ∧
      Bind (NewContext none ["9223372036854775808"])
          (structPtr [⟨"N", "", .uint64, [("arg", "0")], .int 0⟩]) =
        { ctx := NewContext none ["9223372036854775808"]
          target := structPtr [⟨"N", "", .uint64, [("arg", "0")], .int 9223372036854775807⟩]
          out := .nil }) ∧
    ((GoType.named "Age" .int).Kind = .Int ∧
      writes "5" 5 ∧
      representable true 64 5 ∧
      (Bind (NewContext none ["5"])
          (structPtr [⟨"Age", "", .named "Age" .int, [("arg", "0")], .int 0⟩])).out =
        .panic .notAssignable) :=
  ⟨⟨by decide, Or.inl ⟨by decide, by decide⟩, by decide, by decide⟩,
   ⟨by decide, Or.inl ⟨by decide, by decide⟩, by decide, by decide⟩⟩

/-- C11, amended: for every field whose type is one of the predeclared integer types
(`int`, `int8`, `int16`, `int32`, `int64`, `uint`, `uint8`, `uint16`, `uint32`,
`uint64`) and every positional token within range that is the decimal representation
of a value representable in that type and in the 64-bit `int` (for `uint` and
`uint64`: below `2 ^ 63`), `Bind` assigns exactly that value to the field and the loop
goes on without an error. -/
theorem C11_integer_fields (c : contextImpl) (f : StructField) (a : cmdArg) (raw : String)
    (sg : Bool) (w : Nat) (v : Int) (hs : f.CanSet = true)
    (ha : cmdArgFromTagStr (f.Tag.Get "arg") = some a) (h0 : 0 ≤ a.index)
    (hraw : c.args[a.index.toNat]? = some raw) (hk : intKind f.Typ = some (sg, w))
    (hw : writes raw v) (hr : representable sg w v) (hfit : fitsInt v) :
    bindField c f = .next { f with val := .int v } := by
  rw [bindField_int c f a raw sg w hs ha h0 hraw hk, Atoi_writes raw v hw hfit,
    truncate_of_representable sg w (intKind_width hk) v hr]

/-- Witness of C11: the token `-128` and a field of type `int8`. -/
theorem C11_integer_fields_witness :
    bindField (NewContext none ["-128"]) ⟨"N", "", .int8, [("arg", "0")], .int 0⟩ =
      .next ⟨"N", "", .int8, [("arg", "0")], .int (-128)⟩ :=
  C11_integer_fields (NewContext none ["-128"]) ⟨"N", "", .int8, [("arg", "0")], .int 0⟩
    ⟨0, false⟩ "-128" true 8 (-128) (by decide) (by decide) (by decide) (by decide)
    (by decide) (Or.inr ⟨"128", by decide, by decide, by decide⟩) (by decide) (by decide)

/-! ## C12: tokens that do not parse -/

theorem zeroValue_int {t : GoType} {sg : Bool} {w : Nat} (h : intKind t = some (sg, w)) :
    zeroValue t = .int 0 := by
  cases t <;> simp [intKind] at h <;> rfl

theorem truncate_zero (sg : Bool) (w : Nat) : truncate sg w 0 = 0 := by
  cases sg <;> simp [truncate]

/-- C12, as stated, fails in two ways. (1) For the token `9223372036854775808` the
parse fails with a range error, yet an `int` field bound to it holds
`9223372036854775807`, not 0: the error is dropped and the bound that `Atoi` returns
with it is assigned; so for `99999999999999999999x`, where `ParseUint` stops at the
digit that overflows. (2) For a field of the defined type `type Age int` and the token
`abc`, whose parse fails with a syntax error, `Bind` panics instead of assigning 0. -/
theorem C12_counterexample :
    ((Atoi "9223372036854775808").2 = some .ErrRange ∧
      zeroValue .int = .int 0 ∧
      Bind (NewContext none ["9223372036854775808"])
          (structPtr [⟨"N", "", .int, [("arg", "0")], .int 0⟩]) =
        { ctx := NewContext none ["9223372036854775808"]
          target := structPtr [⟨"N", "", .int, [("arg", "0")], .int 9223372036854775807⟩]
          out := .nil } ∧
      Atoi "99999999999999999999x" = (9223372036854775807, some .ErrRange) ∧
      Bind (NewContext none ["99999999999999999999x"])
          (structPtr [⟨"N", "", .int, [("arg", "0")], .int 0⟩]) =
        { ctx := NewContext none ["99999999999999999999x"]
          target := structPtr [⟨"N", "", .int, [("arg", "0")], .int 9223372036854775807⟩]
          out := .nil }) ∧
    ((GoType.named "Age" .int).Kind = .Int ∧
      (Atoi "abc").2 = some .ErrSyntax ∧
      (Bind (NewContext none ["abc"])
          (structPtr [⟨"Age", "", .named "Age" .int, [("arg", "0")], .int 7⟩])).out =
        .panic .notAssignable) := by
  decide

/-- C12, amended: for every field whose type is one of the predeclared integer types
and every positional token within range, when `Atoi` fails with a syntax error (empty
text, a sign alone, a character that is not a digit met before the digits leave
`uint64`) `Bind` assigns the zero value of the type; when it fails with a range error
(a number too large or too small for `int`) `Bind` assigns the bound of `int` that
`Atoi` returns, `2 ^ 63 - 1` or `-2 ^ 63`, converted to the type of the field. -/
theorem C12_parse_failure (c : contextImpl) (f : StructField) (a : cmdArg) (raw : String)
    (sg : Bool) (w : Nat) (hs : f.CanSet = true)
    (ha : cmdArgFromTagStr (f.Tag.Get "arg") = some a) (h0 : 0 ≤ a.index)
    (hraw : c.args[a.index.toNat]? = some raw) (hk : intKind f.Typ = some (sg, w)) :
    ((Atoi raw).2 = some .ErrSyntax →
      bindField c f = .next { f with val := zeroValue f.Typ }) ∧
    ((Atoi raw).2 = some .ErrRange →
      ∃ b : Int, (b = 2 ^ 63 - 1 ∨ b = -(2 ^ 63)) ∧ (Atoi raw).1 = b ∧
        bindField c f = .next { f with val := .int (truncate sg w b) }) := by
  have hb := bindField_int c f a raw sg w hs ha h0 hraw hk
  obtain ⟨-, hsyn, hrng⟩ := Atoi_cases raw
  constructor
  · intro he
    rw [hb, hsyn he, truncate_zero, zeroValue_int hk]
  · intro he
    exact ⟨(Atoi raw).1, hrng he, rfl, hb⟩

/-- Witness of C12: the token `abc` leaves 0 in a field of type `uint16`, and the token
`99999999999999999999x` leaves the bound `2 ^ 63 - 1` converted to `uint16`, 65535. -/
theorem C12_parse_failure_witness :
    bindField (NewContext none ["abc"]) ⟨"N", "", .uint16, [("arg", "0")], .int 7⟩ =
      .next ⟨"N", "", .uint16, [("arg", "0")], .int 0⟩ ∧
    (∃ b : Int, (b = 2 ^ 63 - 1 ∨ b = -(2 ^ 63)) ∧ (Atoi "99999999999999999999x").1 = b ∧
      bindField (NewContext none ["99999999999999999999x"])
          ⟨"N", "", .uint16, [("arg", "0")], .int 7⟩ =
        .next ⟨"N", "", .uint16, [("arg", "0")], .int (truncate false 16 b)⟩) ∧
    truncate false 16 (2 ^ 63 - 1) = 65535 :=
  ⟨(C12_parse_failure (NewContext none ["abc"]) ⟨"N", "", .uint16, [("arg", "0")], .int 7⟩
      ⟨0, false⟩ "abc" false 16 (by decide) (by decide) (by decide) (by decide)
      (by decide)).1 (by decide),
   (C12_parse_failure (NewContext none ["99999999999999999999x"])
      ⟨"N", "", .uint16, [("arg", "0")], .int 7⟩
      ⟨0, false⟩ "99999999999999999999x" false 16 (by decide) (by decide) (by decide)
      (by decide) (by decide)).2 (by decide),
   by decide⟩

/-! ## C13: boolean fields -/

theorem ParseBool_true_iff (s : String) : (ParseBool s).1 = decide (s ∈ trueTokens) := by
  unfold ParseBool trueTokens
  split
  · rename_i h
    simp [h]
  · rename_i h
    have hn : ¬ (s ∈ ["1", "t", "T", "TRUE", "true", "True"]) := by simpa using h
    split <;> simp [hn]

/-- C13, as stated, fails: a field of the defined type `type Flag bool` is a boolean
field (its kind is `Bool`), and with the token `true` within range `Bind` panics:
`findType` returns a `bool`, which `Set` does not accept for the type `Flag`. -/
theorem C13_counterexample :
    (GoType.named "Flag" .bool).Kind = .Bool ∧
    (Bind (NewContext none ["true"])
        (structPtr [⟨"Verbose", "", .named "Flag" .bool, [("arg", "0")],
          .bool false⟩])).out = .panic .notAssignable := by
  decide

/-- C13, amended: a settable field of the predeclared type `bool` with a positional
annotation whose index is within range is assigned true exactly when the token is one
of `1`, `t`, `T`, `TRUE`, `true`, `True`, and false for every other token; the loop
goes on without an error either way. -/
theorem C13_bool_fields (c : contextImpl) (f : StructField) (a : cmdArg) (raw : String)
    (hs : f.CanSet = true) (ha : cmdArgFromTagStr (f.Tag.Get "arg") = some a)
    (h0 : 0 ≤ a.index) (hraw : c.args[a.index.toNat]? = some raw) (ht : f.Typ = .bool) :
    bindField c f = .next { f with val := .bool (decide (raw ∈ trueTokens)) } := by
  rw [bindField_arg_found c f a raw hs ha h0 hraw, ht, findType,
    stripPtr_of_not_ptr _ _ (by simp [GoType.Kind])]
  simp [Value.Kind, GoType.Kind, StructField.Set, GoType.assignable, ht, ParseBool_true_iff]

/-- Witness of C13: the token `yes` is not a boolean token and gives false. -/
theorem C13_bool_fields_witness :
    bindField (NewContext none ["yes"]) ⟨"B", "", .bool, [("arg", "0")], .bool true⟩ =
      .next ⟨"B", "", .bool, [("arg", "0")], .bool false⟩ :=
  C13_bool_fields (NewContext none ["yes"]) ⟨"B", "", .bool, [("arg", "0")], .bool true⟩
    ⟨0, false⟩ "yes" (by decide) (by decide) (by decide) (by decide) rfl

/-! ## C14: arguments that are not a pointer to a struct -/

/-- C14: for every argument that is not a non-nil pointer to a struct (a nil
interface, a value that is not a pointer, a nil pointer, a pointer to something that
is not a struct), `Bind` returns nil and leaves the argument and the context as they
were. -/
theorem C14_not_struct_pointer (c : contextImpl) (t : Arg)
    (h : ∀ fields, t ≠ structPtr fields) :
    Bind c t = { ctx := c, target := t, out := .nil } := by
  unfold Bind
  split
  · rfl
  · split
    · rename_i fields _
      exact absurd rfl (h fields)
    · rfl

/-- Witness of C14: a nil interface, a struct passed by value, a nil pointer and a
pointer to an `int`. -/
theorem C14_not_struct_pointer_witness :
    Bind (NewContext (some testCmd) ["hello"]) .nilInterface =
      { ctx := NewContext (some testCmd) ["hello"], target := .nilInterface, out := .nil } ∧
    Bind (NewContext (some testCmd) ["hello"]) (.nonPointer .Struct) =
      { ctx := NewContext (some testCmd) ["hello"], target := .nonPointer .Struct,
        out := .nil } ∧
    Bind (NewContext (some testCmd) ["hello"]) (.pointer none) =
      { ctx := NewContext (some testCmd) ["hello"], target := .pointer none, out := .nil } ∧
    Bind (NewContext (some testCmd) ["hello"]) (.pointer (some (.nonStruct .Int))) =
      { ctx := NewContext (some testCmd) ["hello"],
        target := .pointer (some (.nonStruct .Int)), out := .nil } :=
  ⟨C14_not_struct_pointer _ _ (by intro fields h; cases h),
   C14_not_struct_pointer _ _ (by intro fields h; cases h),
   C14_not_struct_pointer _ _ (by intro fields h; cases h),
   C14_not_struct_pointer _ _ (by intro fields h; cases h)⟩

/-! ## C15: panics -/

/-- C15 fails on the code: `Bind` panics (1) for a field annotated `arg:"-1"`, where
the guard `len(c.args) <= cmdArg.index` lets the negative index through to
`c.args[cmdArg.index]`; (2) for a field of a defined type `type Name string`, where
`Set` is given a `string`; (3) for a field with a flag annotation when the command of
the context is nil. -/
theorem C15_bind_panics :
    (Bind (NewContext (some testCmd) ["hello"])
        (structPtr [⟨"Username", "", .string, [("arg", "-1")], .string ""⟩])).out =
      .panic .indexOutOfRange ∧
    (Bind (NewContext (some testCmd) ["hello"])
        (structPtr [⟨"Username", "", .named "Name" .string, [("arg", "0")],
          .string ""⟩])).out = .panic .notAssignable ∧
    (Bind (NewContext none ["hello"])
        (structPtr [⟨"Env", "", .string, [("flag", "env")], .string ""⟩])).out =
      .panic .nilDereference := by
  decide

/-! ## C16: the descriptor of a positional annotation -/

/-- C16 fails on the code: for the annotation `-1`, whose text before the first comma
is negative, `cmdArgFromTagStr` returns a descriptor, with the index `-1` (and so for
`-1,optional`); for the empty and the non-numeric annotation it returns none, and
for `2` the descriptor with index 2. -/
theorem C16_negative_index_descriptor :
    cmdArgFromTagStr "-1" = some ⟨-1, false⟩ ∧
    cmdArgFromTagStr "-1,optional" = some ⟨-1, true⟩ ∧
    cmdArgFromTagStr "" = none ∧
    cmdArgFromTagStr "abc" = none ∧
    cmdArgFromTagStr "2" = some ⟨2, false⟩ := by
  decide

/-! ## C17: the marker `optional` -/

/-- C17: when `cmdArgFromTagStr` returns a descriptor, the descriptor is optional if
and only if the annotation has a second comma-separated component and that component,
lower-cased, is `optional`; components after the second are ignored: every other
non-empty annotation with the same first two components gives the same descriptor. -/
theorem C17_optional_marker (tagStr : String) (a : cmdArg)
    (h : cmdArgFromTagStr tagStr = some a) :
    (a.isOptional = true ↔
      ∃ second, (Split tagStr)[1]? = some second ∧ ToLower second = "optional") ∧
    (∀ other : String, other ≠ "" → (Split other).take 2 = (Split tagStr).take 2 →
      cmdArgFromTagStr other = some a) := by
  have hne : tagStr ≠ "" := by
    intro he
    rw [he] at h
    have hn : cmdArgFromTagStr "" = none := by decide
    rw [hn] at h
    cases h
  constructor
  · unfold cmdArgFromTagStr at h
    simp only [hne, ne_eq, not_false_eq_true, if_true] at h
    split at h
    · cases h
    · cases h
      cases hsp : Split tagStr with
      | nil => simp
      | cons x xs =>
        cases xs with
        | nil => simp
        | cons y ys => simp
  · intro other hother htake
    have key : ∀ l l1 : List String, l.take 2 = l1.take 2 →
        l.headD "" = l1.headD "" ∧ l.getD 1 "" = l1.getD 1 "" ∧
          (1 < l.length ↔ 1 < l1.length) := by
      intro l l1 hl
      rcases l with _ | ⟨x, _ | ⟨y, ys⟩⟩ <;> rcases l1 with _ | ⟨x1, _ | ⟨y1, ys1⟩⟩ <;>
        simp_all
    obtain ⟨k1, k2, k3⟩ := key _ _ htake
    rw [← h]
    unfold cmdArgFromTagStr
    simp only [hne, hother, ne_eq, not_false_eq_true, if_true, k1, k2, k3]

/-- Witness of C17: the annotation `2,OPTIONAL`; and the examples: `2,optional` and
`2,OPTIONAL` are optional, `2`, `2,`, `2, optional` and `2,x,optional` are not. -/
theorem C17_optional_marker_witness :
    cmdArgFromTagStr "2,OPTIONAL" = some ⟨2, true⟩ ∧
    (((⟨2, true⟩ : cmdArg).isOptional = true ↔
      ∃ second, (Split "2,OPTIONAL")[1]? = some second ∧ ToLower second = "optional") ∧
    (∀ other : String, other ≠ "" → (Split other).take 2 = (Split "2,OPTIONAL").take 2 →
      cmdArgFromTagStr other = some ⟨2, true⟩)) ∧
    cmdArgFromTagStr "2,optional" = some ⟨2, true⟩ ∧
    cmdArgFromTagStr "2" = some ⟨2, false⟩ ∧
    cmdArgFromTagStr "2," = some ⟨2, false⟩ ∧
    cmdArgFromTagStr "2, optional" = some ⟨2, false⟩ ∧
    cmdArgFromTagStr "2,x,optional" = some ⟨2, false⟩ ∧
    cmdArgFromTagStr "2,x" = some ⟨2, false⟩ :=
  ⟨by decide, C17_optional_marker "2,OPTIONAL" ⟨2, true⟩ (by decide), by decide, by decide,
    by decide, by decide, by decide, by decide⟩

/-! ## C18: `Handle` -/

/-- The loop over the runners with a command that is not nil, started at position
`i`: the calls are those of the positions up to the first runner that fails, in order
and with the one context, followed by the usage text and `os.Exit(1)` exactly when a
runner fails. -/
theorem runRunners_trace {σ : Type} (cmd : Command) (ctx : contextImpl)
    (rs : List (Runner σ)) :
    ∀ (i : Nat) (s : σ),
      match firstFailure ctx rs s with
      | some k =>
        k < rs.length ∧
        (runRunners (some cmd) ctx i rs s).trace =
          (List.range' i (k + 1)).map (fun j => Event.call j ctx) ++ [.usage, .exit 1] ∧
        (runRunners (some cmd) ctx i rs s).returned = false
      | none =>
        (runRunners (some cmd) ctx i rs s).trace =
          (List.range' i rs.length).map (fun j => Event.call j ctx) ∧
        (runRunners (some cmd) ctx i rs s).returned = true := by
  induction rs with
  | nil => intro i s; simp [firstFailure, runRunners]
  | cons r rs ih =>
    intro i s
    rcases hr : r ctx s with ⟨_ | e, s1⟩
    · have := ih (i + 1) s1
      simp only [firstFailure, runRunners, hr]
      cases hf : firstFailure ctx rs s1 with
      | none =>
        simp only [hf] at this
        simp [this.1, this.2, List.range'_succ]
      | some k =>
        simp only [hf] at this
        simp [this.1, this.2.1, this.2.2, List.range'_succ]
    · simp [firstFailure, runRunners, hr]

/-- C18, as stated, fails: called with a nil command and a runner that fails, the
callback calls the runner and then panics in `cmd.Usage()`: no usage text is printed
and the process is not ended by `os.Exit(1)`. -/
theorem C18_counterexample :
    firstFailure (σ := Unit) (NewContext none ["hello"]) [fun _ s => (some "boom", s)] () =
      some 0 ∧
    (Handle (σ := Unit) [fun _ s => (some "boom", s)] none ["hello"] ()).trace =
      [.call 0 (NewContext none ["hello"]), .panic .nilDereference] ∧
    Event.usage ∉ (Handle (σ := Unit) [fun _ s => (some "boom", s)] none ["hello"] ()).trace ∧
    Event.exit 1 ∉ (Handle (σ := Unit) [fun _ s => (some "boom", s)] none ["hello"] ()).trace := by
  refine ⟨rfl, rfl, ?_, ?_⟩ <;> decide

/-- C18, amended: for every list of runners, the callback of `Handle`, called with a
command that is not nil, makes one context and calls the runners in order with it.
When some runner fails, with `k` the position of the first that does, the events are
the calls of the runners `0 .. k`, then the usage text, then `os.Exit(1)`, and the
callback does not return; when none fails, the events are the calls of all the
runners, once each and in order, and the callback returns. -/
theorem C18_handle {σ : Type} (runners : List (Runner σ)) (cmd : Command)
    (args : List String) (s : σ) :
    match firstFailure (NewContext (some cmd) args) runners s with
    | some k =>
      k < runners.length ∧
      (Handle runners (some cmd) args s).trace =
        (List.range (k + 1)).map (fun j => Event.call j (NewContext (some cmd) args)) ++
          [.usage, .exit 1] ∧
      (Handle runners (some cmd) args s).returned = false
    | none =>
      (Handle runners (some cmd) args s).trace =
        (List.range runners.length).map (fun j => Event.call j (NewContext (some cmd) args)) ∧
      (Handle runners (some cmd) args s).returned = true := by
  have h := runRunners_trace cmd (NewContext (some cmd) args) runners 0 s
  simp only [List.range_eq_range', Handle]
  exact h

/-- Scenario 5: of two runners the first fails; the second is not called, the usage
text is printed and the process ends with status 1. -/
theorem Handle_first_fails :
    (Handle (σ := Unit) [fun _ s => (some "boom", s), fun _ s => (none, s)]
        (some testCmd) ["hello"] ()).trace =
      [.call 0 (NewContext (some testCmd) ["hello"]), .usage, .exit 1] ∧
    (Handle (σ := Unit) [fun _ s => (some "boom", s), fun _ s => (none, s)]
        (some testCmd) ["hello"] ()).returned = false :=
  ⟨rfl, rfl⟩

/-! ## C20: narrowing of integers -/

/-- C20, as stated, fails: a field of the defined type `type Port uint8` has the kind
`Uint8`, and `300` fits `int` but not `uint8`, yet `Bind` does not assign 44: it
panics, because `findType` returns a `uint8`, which `Set` does not accept for the type
`Port`. -/
theorem C20_counterexample :
    (GoType.named "Port" .uint8).Kind = .Uint8 ∧
    writes "300" 300 ∧ fitsInt 300 ∧ ¬ representable false 8 300 ∧
    (Bind (NewContext none ["300"])
        (structPtr [⟨"Port", "", .named "Port" .uint8, [("arg", "0")], .int 0⟩])).out =
      .panic .notAssignable :=
  ⟨by decide, Or.inl ⟨by decide, by decide⟩, by decide, by decide, by decide⟩

/-- C20, amended: for every field whose type is one of the predeclared integer types,
of width `w`, and every positional token within range that is the decimal
representation of a number `n` that fits the 64-bit `int`, `Bind` assigns `n` reduced
modulo `2 ^ w` and reinterpreted in the type of the field (whether `n` fits that type
or not), and the loop goes on without an error. -/
theorem C20_truncation (c : contextImpl) (f : StructField) (a : cmdArg) (raw : String)
    (sg : Bool) (w : Nat) (n : Int) (hs : f.CanSet = true)
    (ha : cmdArgFromTagStr (f.Tag.Get "arg") = some a) (h0 : 0 ≤ a.index)
    (hraw : c.args[a.index.toNat]? = some raw) (hk : intKind f.Typ = some (sg, w))
    (hw : writes raw n) (hfit : fitsInt n) :
    bindField c f = .next { f with val := .int (truncate sg w n) } := by
  rw [bindField_int c f a raw sg w hs ha h0 hraw hk, Atoi_writes raw n hw hfit]

/-- Witness of C20: `300` bound to a `uint8` gives 44, `128` bound to an `int8` gives
-128, and `-1` bound to a `uint64` gives `2 ^ 64 - 1`. -/
theorem C20_truncation_witness :
    bindField (NewContext none ["300"]) ⟨"N", "", .uint8, [("arg", "0")], .int 0⟩ =
      .next ⟨"N", "", .uint8, [("arg", "0")], .int 44⟩ ∧
    bindField (NewContext none ["128"]) ⟨"N", "", .int8, [("arg", "0")], .int 0⟩ =
      .next ⟨"N", "", .int8, [("arg", "0")], .int (-128)⟩ ∧
    bindField (NewContext none ["-1"]) ⟨"N", "", .uint64, [("arg", "0")], .int 0⟩ =
      .next ⟨"N", "", .uint64, [("arg", "0")], .int 18446744073709551615⟩ :=
  ⟨(C20_truncation (NewContext none ["300"]) ⟨"N", "", .uint8, [("arg", "0")], .int 0⟩
      ⟨0, false⟩ "300" false 8 300 (by decide) (by decide) (by decide) (by decide)
      (by decide) (Or.inl ⟨by decide, by decide⟩) (by decide)).trans (by decide),
   (C20_truncation (NewContext none ["128"]) ⟨"N", "", .int8, [("arg", "0")], .int 0⟩
      ⟨0, false⟩ "128" true 8 128 (by decide) (by decide) (by decide) (by decide)
      (by decide) (Or.inl ⟨by decide, by decide⟩) (by decide)).trans (by decide),
   (C20_truncation (NewContext none ["-1"]) ⟨"N", "", .uint64, [("arg", "0")], .int 0⟩
      ⟨0, false⟩ "-1" false 64 (-1) (by decide) (by decide) (by decide) (by decide)
      (by decide) (Or.inr ⟨"1", by decide, by decide, by decide⟩) (by decide)).trans
      (by decide)⟩

/-! ## C19: idempotence -/

theorem GoType.Kind_underlying (t : GoType) : t.underlying.Kind = t.Kind := by
  induction t with
  | named n u ih => simpa [GoType.underlying, GoType.Kind] using ih
  | _ => rfl

/-- What `findType` returns has one of the predeclared types `string`, `int`, ...,
`bool`. -/
theorem findType_some_typ {raw : String} {t : GoType} {d : GoValue} {x : Value}
    (h : findType raw t d = some x) :
    x.typ.hasName = true ∧ x.typ.underlying = x.typ ∧ x.typ.Kind ≠ .Ptr := by
  unfold findType at h
  split at h <;> cases h <;> simp [GoType.hasName, GoType.underlying, GoType.Kind]

theorem assignable_kind {T V : GoType} (h : T.assignable V = true)
    (hV : V.underlying = V) : T.Kind = V.Kind := by
  unfold GoType.assignable at h
  simp only [Bool.or_eq_true, decide_eq_true_eq, Bool.and_eq_true] at h
  rcases h with rfl | ⟨-, hu⟩
  · rfl
  · rw [← GoType.Kind_underlying T, hu, hV]

theorem findType_of_not_ptr (raw : String) (t : GoType) (d d1 : GoValue)
    (h : t.Kind ≠ .Ptr) : findType raw t d = findType raw t d1 := by
  unfold findType
  rw [stripPtr_of_not_ptr t d h, stripPtr_of_not_ptr t d1 h]
  rfl

/-- A field that has taken its step takes the same step again: the step does not
depend on the contents it overwrote. -/
theorem bindField_next_idem (c : contextImpl) (f f1 : StructField)
    (h : bindField c f = .next f1) : bindField c f1 = .next f1 := by
  cases hs : f.CanSet
  · rw [bindField_not_settable c f hs] at h
    cases h
    exact bindField_not_settable c f hs
  · cases ha : cmdArgFromTagStr (f.Tag.Get "arg") with
    | none =>
      by_cases hf : f.Tag.Get "flag" = ""
      · rw [bindField_untagged c f ha hf] at h
        cases h
        exact bindField_untagged c f ha hf
      · rw [bindField_flag c f hs ha hf] at h
        cases hv : findFlagType c (f.Tag.Get "flag") f.Typ with
        | error p => rw [hv] at h; cases h
        | ok o =>
          cases o with
          | none =>
            rw [hv] at h
            cases h
            rw [bindField_flag c f hs ha hf, hv]
          | some x =>
            rw [hv] at h
            simp only [StructField.Set] at h
            cases hx : f.Typ.assignable x.typ
            · rw [hx] at h
              cases h
            · rw [hx] at h
              cases h
              have hb := bindField_flag c { f with val := x.data } hs ha hf
              rw [hb]
              simp only [hv, StructField.Set, hx, if_true]
    | some a =>
      by_cases hi : (c.args.length : Int) ≤ a.index
      · rw [bindField_arg_missing c f a hs ha hi] at h
        cases ho : a.isOptional
        · rw [ho] at h
          cases h
        · rw [ho] at h
          cases h
          rw [bindField_arg_missing c f a hs ha hi, ho]
          rfl
      · by_cases hn : a.index < 0
        · rw [bindField_arg_negative c f a hs ha hn] at h
          cases h
        · have hlt : a.index.toNat < c.args.length := by omega
          have hraw : c.args[a.index.toNat]? = some c.args[a.index.toNat] :=
            List.getElem?_eq_getElem hlt
          rw [bindField_arg_found c f a _ hs ha (by omega) hraw] at h
          cases hx : findType c.args[a.index.toNat] f.Typ f.val with
          | none =>
            rw [hx] at h
            cases h
            rw [bindField_arg_found c f a _ hs ha (by omega) hraw, hx]
          | some x =>
            rw [hx] at h
            simp only [StructField.Set] at h
            cases hassign : f.Typ.assignable x.typ
            · rw [hassign] at h
              cases h
            · rw [hassign] at h
              cases h
              obtain ⟨-, hund, hptr⟩ := findType_some_typ hx
              have hk : f.Typ.Kind ≠ .Ptr := by
                rw [assignable_kind hassign hund]
                exact hptr
              have hb := bindField_arg_found c { f with val := x.data } a _ hs ha
                (by omega) hraw
              rw [hb]
              simp only
              rw [findType_of_not_ptr _ f.Typ x.data f.val hk, hx]
              simp only [StructField.Set, hassign, if_true]

/-- Running the loop again over the fields it left gives the same fields and the same
end, when the first run did not panic. -/
theorem bindFields_idem (c : contextImpl) (fields : List StructField)
    (hp : ∀ p, (bindFields c fields).2 ≠ .panic p) :
    bindFields c (bindFields c fields).1 = bindFields c fields := by
  induction fields with
  | nil => rfl
  | cons x xs ih =>
    cases hx : bindField c x with
    | next x1 =>
      rw [bindFields_next _ hx] at hp ⊢
      rw [bindFields_next _ (bindField_next_idem c x x1 hx), ih hp]
    | ret msg =>
      rw [bindFields_ret _ hx]
      exact bindFields_ret _ hx
    | panic p =>
      rw [bindFields_panic _ hx] at hp
      exact absurd rfl (hp p)

/-- C19: for every context and every argument on which `Bind` does not panic, a
fresh zero-valued struct among them, a second call of `Bind` with the same context
on what the first call left returns the same outcome as the first and leaves every
field as the first call left it. -/
theorem C19_idempotent (c : contextImpl) (t : Arg)
    (hp : ∀ p, (Bind c t).out ≠ .panic p) :
    Bind c (Bind c t).target = Bind c t := by
  rcases t with _ | k | _ | fields | k
  · rfl
  · simp [Bind, isStructPtr, Arg.Kind, Arg.ElemKind]
  · rfl
  · have e : Arg.pointer (some (Pointee.struct fields)) = structPtr fields := rfl
    rw [e, Bind_structPtr] at hp ⊢
    simp only at hp ⊢
    rw [Bind_structPtr, bindFields_idem c fields hp]
  · cases hk : isStructPtr (.pointer (some (.nonStruct k))) <;> simp [Bind, hk]

/-- Witness of C19: the fresh payload of the tests with the arguments `hello 2`. -/
theorem C19_idempotent_witness :
    (∀ p, (Bind (NewContext (some testCmd) ["hello", "2"]) (structPtr newPayload)).out ≠
      .panic p) ∧
    Bind (NewContext (some testCmd) ["hello", "2"])
        (Bind (NewContext (some testCmd) ["hello", "2"]) (structPtr newPayload)).target =
      Bind (NewContext (some testCmd) ["hello", "2"]) (structPtr newPayload) :=
  have hp : ∀ p, (Bind (NewContext (some testCmd) ["hello", "2"])
      (structPtr newPayload)).out ≠ .panic p := by
    intro p h
    have e : (Bind (NewContext (some testCmd) ["hello", "2"]) (structPtr newPayload)).out =
        .nil := by decide
    rw [e] at h
    cases h
  ⟨hp, C19_idempotent _ _ hp⟩

end Kaa
